import Mathlib

/-!
Verification development for the renewal-ledger orchestrator.

The definitions below are a shallow embedding of the TypeScript edge
functions under `supabase/functions/` (renewal-plan, renewal-snapshot,
hubspot-renewal-create, hubspot-renewal-enqueue):

* JSON payloads are modelled by the inductive `Json` (numbers as rationals).
* The `renewal_ledger` table is a list of `LedgerRow` values; the SQL
  conditional updates issued through the supabase client are modelled as
  list maps guarded by the same predicates used in the `.eq`/`.is` filters,
  and inserts as appends.  Store connectivity failures are not modelled
  (every store operation succeeds), matching the claims under scrutiny,
  which are about the success-path semantics of the writes.
* The external CRM's line-item collection is a `CrmState`: a list of
  objects with string properties, searched by property equality exactly as
  the fingerprint search does, with fresh ids drawn from a counter.
* HTTP interactions are oracles: each external call's outcome is an input
  (an `HttpResponse`, an `Except`, or a list of per-iteration results), and
  thrown exceptions are `Except.error` values.
* Pure date arithmetic of the create handler (forecast start/end
  computation) does not influence which effects are performed beyond its
  possibility of throwing; it is therefore supplied as a `ForecastData`
  oracle carrying the already-formatted values that flow into payloads.
-/

namespace RenewalSpec

/-! ## JSON model -/

/-- An exact rational kept as an unreduced fraction. All numbers the code
manipulates are exact decimals, so fraction arithmetic models the JS float
arithmetic faithfully on the operations the code performs (`*`, `/`,
sign tests, `Math.abs`). The denominator is positive in every number the
parser or a literal produces; `div` may produce a negative denominator, so
the sign tests below read the sign of `num * den`. -/
structure JsNum where
  num : Int
  den : Int
deriving DecidableEq, Repr

instance : OfNat JsNum n := ⟨⟨(n : Int), 1⟩⟩

/-- `a * b` on fractions. -/
def JsNum.mul (a b : JsNum) : JsNum := ⟨a.num * b.num, a.den * b.den⟩

/-- `a / b` on fractions (the code only divides by a quantity it has just
forced positive, so the denominator never vanishes). -/
def JsNum.div (a b : JsNum) : JsNum := ⟨a.num * b.den, a.den * b.num⟩

/-- `0 < a`, valid for an unnormalised sign. -/
def JsNum.isPos (a : JsNum) : Bool := 0 < a.num * a.den

/-- `a < 0`, valid for an unnormalised sign. -/
def JsNum.isNeg (a : JsNum) : Bool := a.num * a.den < 0

/-- `Math.abs`. -/
def JsNum.abs (a : JsNum) : JsNum := ⟨|a.num|, |a.den|⟩

/-- JSON values; numbers are modelled as exact rationals. -/
inductive Json where
  | null
  | bool (b : Bool)
  | num (q : JsNum)
  | str (s : String)
  | arr (items : List Json)
  | obj (fields : List (String × Json))

/-- Property access `value[key]` on a JS object; anything that is not an
object, or a missing key, yields `null` (collapsing JS `undefined` and
`null`, which every consumer below treats identically). -/
def Json.getField : Json → String → Json
  | .obj fields, key =>
      match fields.find? (fun p => p.1 == key) with
      | some p => p.2
      | none => .null
  | _, _ => .null

/-- Mirrors `isRecord`: a non-null, non-array object. -/
def jsonIsRecord : Json → Bool
  | .obj _ => true
  | _ => false

/-- Whitespace trim on a character list (kernel-computable counterpart of
JS `String.prototype.trim`). -/
def trimChars (l : List Char) : List Char :=
  ((l.dropWhile Char.isWhitespace).reverse.dropWhile Char.isWhitespace).reverse

def strTrim (s : String) : String := String.mk (trimChars s.toList)

/-- ASCII lowercase (kernel-computable counterpart of `toLowerCase`). -/
def strToLower (s : String) : String := String.mk (s.toList.map Char.toLower)

/-- Mirrors `asNonEmptyString` applied to a JSON value: strings only,
trimmed, empty results dropped. -/
def asNonEmptyString : Json → Option String
  | .str s =>
      let trimmed := trimChars s.toList
      if trimmed.isEmpty then none else some (String.mk trimmed)
  | _ => none

/-- Mirrors `asNonEmptyString` applied to a nullable string column. -/
def asNonEmptyStringOpt : Option String → Option String
  | some s =>
      let trimmed := trimChars s.toList
      if trimmed.isEmpty then none else some (String.mk trimmed)
  | none => none

def digitsToNat (ds : List Char) : Nat :=
  ds.foldl (fun acc c => acc * 10 + (c.toNat - 48)) 0

/-- Decimal fragment of JS `Number.parseFloat` (optional sign, integer and
fraction digits, ignoring any trailing junk; exponent forms are outside the
scope of this model — no claim exercises them). -/
def parseDecimalRat (s : String) : Option JsNum :=
  let cs := s.toList
  let signAndRest : Int × List Char :=
    match cs with
    | '-' :: rest => (-1, rest)
    | '+' :: rest => (1, rest)
    | _ => (1, cs)
  let intPart := signAndRest.2.takeWhile Char.isDigit
  let afterInt := signAndRest.2.drop intPart.length
  let fracPart :=
    match afterInt with
    | '.' :: r2 => r2.takeWhile Char.isDigit
    | _ => []
  if intPart.isEmpty && fracPart.isEmpty then none
  else
    -- sign * (int + frac / 10^len), written over the common denominator.
    some ⟨signAndRest.1 *
            ((digitsToNat intPart * 10 ^ fracPart.length + digitsToNat fracPart : Nat) : Int),
          ((10 ^ fracPart.length : Nat) : Int)⟩

/-- Mirrors `asFiniteNumber`: finite numbers pass through, numeric strings
are parsed, everything else is `none`. -/
def asFiniteNumber : Json → Option JsNum
  | .num q => some q
  | .str s => parseDecimalRat (strTrim s)
  | _ => none

/-- Mirrors `parseArrayPayload` / the array branches of `parseCharges`:
accept a bare array or one wrapped under `items` / `data` / `value`. -/
def parseArrayPayload (payload : Json) : List Json :=
  match payload with
  | .arr xs => xs
  | .obj _ =>
      match payload.getField "items" with
      | .arr xs => xs
      | _ =>
          match payload.getField "data" with
          | .arr xs => xs
          | _ =>
              match payload.getField "value" with
              | .arr xs => xs
              | _ => []
  | _ => []

/-- Mirrors `parseCharges`: like `parseArrayPayload` but keeping only the
elements that are records. -/
def parseCharges (payload : Json) : List Json :=
  (parseArrayPayload payload).filter jsonIsRecord

/-- Whether `pat` occurs at the head of the second list. -/
def startsWithChars : List Char → List Char → Bool
  | [], _ => true
  | _ :: _, [] => false
  | c :: cs, d :: ds => c == d && startsWithChars cs ds

/-- Whether `pat` occurs contiguously anywhere in the list. -/
def hasSubChars (pat : List Char) : List Char → Bool
  | [] => pat.isEmpty
  | d :: ds => startsWithChars pat (d :: ds) || hasSubChars pat ds

/-- JS `String.prototype.includes`: substring test. -/
def strIncludes (hay needle : String) : Bool :=
  hasSubChars needle.toList hay.toList

/-! ## Ledger data model

One `LedgerRow` per `renewal_ledger` row.  The `status` column's domain is
the four-state enum of the design; the enqueue function's string comparison
on lowercased status is represented by matching on the enum, with its
default branch coinciding with the `created` case (the only value that is
neither planned, processing nor error).  Metadata is a JS-object of string
entries; the JS spread `{...a, ...b}` keeps the first-insertion position of
a key and lets the later value win, which `metaMerge` reproduces. -/

inductive LedgerStatus where
  | planned
  | processing
  | created
  | error
deriving DecidableEq, Repr

abbrev Metadata := List (String × String)

/-- JS object key assignment: overwrite in place, or append a new key. -/
def metaSet (m : Metadata) (k v : String) : Metadata :=
  if m.any (fun p => p.1 == k) then
    m.map (fun p => if p.1 == k then (k, v) else p)
  else m ++ [(k, v)]

/-- JS object spread `{...base, ...patch}`. -/
def metaMerge (base patch : Metadata) : Metadata :=
  patch.foldl (fun acc p => metaSet acc p.1 p.2) base

structure LedgerRow where
  subscription_id : String
  term_end_date : String
  status : LedgerStatus
  created_source : Option String
  source_hubspot_deal_id : Option String
  hubspot_deal_id : Option String
  metadata : Metadata
  updated_at : String
deriving DecidableEq, Repr

abbrev LedgerStore := List LedgerRow

/-- The `.eq('subscription_id', s).eq('term_end_date', t)` filter pair every
ledger write carries. -/
def rowHasKey (r : LedgerRow) (s t : String) : Bool :=
  r.subscription_id == s && r.term_end_date == t

/-- Mirrors `readLedgerMetadata`: `maybeSingle` metadata read, defaulting to
the empty object. -/
def readLedgerMetadata (store : LedgerStore) (s t : String) : Metadata :=
  match store.find? (fun r => rowHasKey r s t) with
  | some r => r.metadata
  | none => []

/-- Merged metadata written by `markLedgerError`. -/
def markErrorMergedMeta (store : LedgerStore) (s t sourceDealId message nowIso : String)
    (extraMetadata : Metadata) : Metadata :=
  metaMerge (metaMerge (readLedgerMetadata store s t) extraMetadata)
    [("source_hubspot_deal_id", sourceDealId),
     ("hubspot_error", message),
     ("hubspot_error_at", nowIso)]

/-- Mirrors `markLedgerError`: unconditional (key-matched only) update to
status `error` with merged metadata. -/
def markLedgerError (store : LedgerStore) (s t sourceDealId message nowIso : String)
    (extraMetadata : Metadata) : LedgerStore :=
  let merged := markErrorMergedMeta store s t sourceDealId message nowIso extraMetadata
  store.map (fun r =>
    if rowHasKey r s t then
      { r with status := .error, metadata := merged, updated_at := nowIso }
    else r)

/-- Merged metadata written by `releaseLedgerForRetry`. -/
def releaseMergedMeta (store : LedgerStore) (s t sourceDealId message nowIso : String) : Metadata :=
  metaMerge (readLedgerMetadata store s t)
    [("source_hubspot_deal_id", sourceDealId),
     ("hubspot_error", message),
     ("hubspot_error_at", nowIso)]

/-- Mirrors `releaseLedgerForRetry`: conditional update back to `planned`,
matched on the key and on `status = 'processing'`. -/
def releaseLedgerForRetry (store : LedgerStore) (s t sourceDealId message nowIso : String) :
    LedgerStore :=
  let merged := releaseMergedMeta store s t sourceDealId message nowIso
  store.map (fun r =>
    if rowHasKey r s t && r.status == .processing then
      { r with status := .planned, metadata := merged, updated_at := nowIso }
    else r)

/-- The claim predicate: key match, `status = 'planned'`, and
`hubspot_deal_id IS NULL`. -/
def claimMatches (r : LedgerRow) (s t : String) : Bool :=
  rowHasKey r s t && r.status == .planned && r.hubspot_deal_id.isNone

/-- Mirrors `claimLedgerForProcessing`: one conditional update to
`processing`; the returned flag is whether any row was updated (the source
reads it off the returned row list). -/
def claimLedgerForProcessing (store : LedgerStore) (s t nowIso : String) : Bool × LedgerStore :=
  (store.any (fun r => claimMatches r s t),
   store.map (fun r =>
     if claimMatches r s t then { r with status := .processing, updated_at := nowIso } else r))

/-- Merged metadata written by the create handler before its `created`
update (`calculatedAmount` and the line-item block are the handler's two
conditional spreads). -/
def markCreatedMergedMeta (store : LedgerStore) (s t sourceDealId createdDealId : String)
    (calculatedAmount : Option String) (runMode nowIso : String) (lineItemsMeta : Metadata) :
    Metadata :=
  metaMerge (readLedgerMetadata store s t)
    ([("source_hubspot_deal_id", sourceDealId), ("created_deal_id", createdDealId)]
      ++ (match calculatedAmount with
          | some a => [("calculated_amount", a)]
          | none => [])
      ++ [("run_mode", runMode), ("timestamp", nowIso)]
      ++ lineItemsMeta)

/-- Mirrors the create handler's ledger update to status `created`: sets
`hubspot_deal_id`, `status`, merged metadata and `updated_at`, matched on
the key only (no predicate on the current status or deal id). -/
def handlerMarkCreated (store : LedgerStore) (s t sourceDealId createdDealId : String)
    (calculatedAmount : Option String) (runMode nowIso : String) (lineItemsMeta : Metadata) :
    LedgerStore :=
  let merged :=
    markCreatedMergedMeta store s t sourceDealId createdDealId calculatedAmount runMode nowIso
      lineItemsMeta
  store.map (fun r =>
    if rowHasKey r s t then
      { r with hubspot_deal_id := some createdDealId, status := .created,
               metadata := merged, updated_at := nowIso }
    else r)

/-- N sequential claim attempts on one key (each with its own timestamp);
returns how many attempts succeeded and the final store. -/
def claimRepeatedly (store : LedgerStore) (s t : String) : List String → Nat × LedgerStore
  | [] => (0, store)
  | nowIso :: rest =>
      let step := claimLedgerForProcessing store s t nowIso
      let restRun := claimRepeatedly step.2 s t rest
      ((if step.1 then 1 else 0) + restRun.1, restRun.2)

/-! ## Manual planning (hubspot-renewal-enqueue upsertManualQueueRow) -/

inductive EnqueueResultKind where
  | queued_new
  | already_queued
  | already_created
  | requeued_from_error
deriving DecidableEq, Repr

/-- Mirrors `loadLedgerRow`: `maybeSingle` select by key. -/
def loadLedgerRow (store : LedgerStore) (s t : String) : Option LedgerRow :=
  store.find? (fun r => rowHasKey r s t)

/-- Merged metadata written by `upsertManualQueueRow`. -/
def manualQueueMergedMeta (existingMeta : Metadata)
    (sourceDealId companyId custId nowIso : String) : Metadata :=
  metaMerge existingMeta
    [("manual_enqueue_last_requested_at", nowIso),
     ("manual_enqueue_source_hubspot_deal_id", sourceDealId),
     ("manual_enqueue_company_id", companyId),
     ("manual_enqueue_younium_custid", custId)]

/-- Mirrors `upsertManualQueueRow`.  The source receives the row previously
loaded by key; here the load is inlined.  Branches, in source order: a row
with a non-empty `hubspot_deal_id` short-circuits to `already_created`
without writing; a missing row is inserted as `planned`; a
`planned`/`processing` row gets metadata refreshed (`already_queued`); an
`error` row is re-queued to `planned`; the remaining case (the source's
default branch, reachable for a `created` row whose deal id is empty) is
also set to `planned`. -/
def upsertManualQueueRow (store : LedgerStore) (s t sourceDealId companyId custId nowIso : String) :
    EnqueueResultKind × LedgerStore :=
  match loadLedgerRow store s t with
  | some row =>
      if (asNonEmptyStringOpt row.hubspot_deal_id).isSome then
        (.already_created, store)
      else
        let merged := manualQueueMergedMeta row.metadata sourceDealId companyId custId nowIso
        match row.status with
        | .planned =>
            (.already_queued, store.map (fun r =>
              if rowHasKey r s t then
                { r with source_hubspot_deal_id := some sourceDealId, metadata := merged,
                         updated_at := nowIso }
              else r))
        | .processing =>
            (.already_queued, store.map (fun r =>
              if rowHasKey r s t then
                { r with source_hubspot_deal_id := some sourceDealId, metadata := merged,
                         updated_at := nowIso }
              else r))
        | .error =>
            (.requeued_from_error, store.map (fun r =>
              if rowHasKey r s t then
                { r with status := .planned, source_hubspot_deal_id := some sourceDealId,
                         metadata := merged, updated_at := nowIso }
              else r))
        | .created =>
            (.already_queued, store.map (fun r =>
              if rowHasKey r s t then
                { r with status := .planned, source_hubspot_deal_id := some sourceDealId,
                         metadata := merged, updated_at := nowIso }
              else r))
  | none =>
      let merged := manualQueueMergedMeta [] sourceDealId companyId custId nowIso
      (.queued_new, store ++
        [{ subscription_id := s, term_end_date := t, status := .planned,
           created_source := some "manual", source_hubspot_deal_id := some sourceDealId,
           hubspot_deal_id := none, metadata := merged, updated_at := nowIso }])

/-! ## Effects

Each external interaction of the create handler, named; `isMutation` marks
the ledger writes and the CRM create/associate/update calls (reads are the
rest). -/

inductive Effect where
  | fetchSourceDeal
  | fetchCompanyDomain
  | searchLineItem
  | createLineItem
  | associateLineItem
  | fetchNetTcv
  | updateDealAmount
  | createDeal
  | ledgerClaim
  | ledgerMarkError
  | ledgerRelease
  | ledgerMarkCreated
deriving DecidableEq, Repr

def Effect.isMutation : Effect → Bool
  | .createLineItem => true
  | .associateLineItem => true
  | .updateDealAmount => true
  | .createDeal => true
  | .ledgerClaim => true
  | .ledgerMarkError => true
  | .ledgerRelease => true
  | .ledgerMarkCreated => true
  | _ => false

/-! ## Charge mapping helpers (hubspot-renewal-create) -/

/-- Mirrors `isRecurringAndNotCancelled`. -/
def isRecurringAndNotCancelled (charge : Json) : Bool :=
  let chargeType := (asNonEmptyString (charge.getField "chargeType")).map strToLower
  let changeState := (asNonEmptyString (charge.getField "changeState")).map strToLower
  if chargeType != some "recurring" then false
  else
    match changeState with
    | none => false
    | some cs => cs == "new" || cs == "notchanged" || cs == "newfromchange"

/-- Mirrors `findUnitPrice`: `displayPrice`, else `priceDetails[0].price`. -/
def findUnitPrice (charge : Json) : Option JsNum :=
  match asFiniteNumber (charge.getField "displayPrice") with
  | some p => some p
  | none =>
      match charge.getField "priceDetails" with
      | .arr (firstDetail :: _) =>
          if jsonIsRecord firstDetail then asFiniteNumber (firstDetail.getField "price")
          else none
      | _ => none

/-- Mirrors `normalizeLookupKey`: lowercase, keep only `a-z0-9`. -/
def normalizeLookupKey (value : String) : String :=
  String.mk ((value.toList.map Char.toLower).filter (fun c =>
    ('a' ≤ c && c ≤ 'z') || ('0' ≤ c && c ≤ '9')))

/-- Mirrors `getNestedString`. -/
def getNestedString (record : Json) (key : String) : Option String :=
  let value := record.getField key
  if jsonIsRecord value then
    match asNonEmptyString (value.getField "id") with
    | some s => some s
    | none => asNonEmptyString (value.getField "name")
  else asNonEmptyString value

/-- Mirrors `getChargeTextCandidates`. -/
def getChargeTextCandidates (charge : Json) : List String :=
  [asNonEmptyString (charge.getField "name"),
   asNonEmptyString (charge.getField "productName"),
   getNestedString charge "product"].filterMap id

def opensensePackageTargets : List String :=
  ["opensensesignaturepackage", "opensensepipelinepackage", "opensensecompletepackage"]

/-- Mirrors `isOpensensePackageCharge`. -/
def isOpensensePackageCharge (charge : Json) : Bool :=
  (getChargeTextCandidates charge).any (fun value =>
    opensensePackageTargets.contains (normalizeLookupKey value))

/-- The `pricePeriod ?? billingPeriod` lookup shared by the frequency and
billing-period mappers. -/
def chargePricePeriodRaw (charge : Json) : Option String :=
  match asNonEmptyString (charge.getField "pricePeriod") with
  | some v => some v
  | none => asNonEmptyString (charge.getField "billingPeriod")

/-- Mirrors `mapChargeToRecurringFrequency`. -/
def mapChargeToRecurringFrequency (charge : Json) (termMonths : ℤ) : Option String :=
  if isOpensensePackageCharge charge then some "annually"
  else
    let pricePeriod := normalizeLookupKey ((chargePricePeriodRaw charge).getD "")
    if pricePeriod == "" then none
    else if pricePeriod == "monthly" then some "monthly"
    else if pricePeriod == "quarterly" then some "quarterly"
    else if pricePeriod == "biannual" || pricePeriod == "semiannually" then some "per_six_months"
    else if pricePeriod == "annual" || pricePeriod == "annually" then some "annually"
    else if pricePeriod == "weekly" then some "weekly"
    else if pricePeriod == "everytwoweeks" || pricePeriod == "biweekly" then some "biweekly"
    else if pricePeriod == "endofterm" then
      if 60 ≤ termMonths then some "per_five_years"
      else if 48 ≤ termMonths then some "per_four_years"
      else if 36 ≤ termMonths then some "per_three_years"
      else if 24 ≤ termMonths then some "per_two_years"
      else some "annually"
    else none

/-- Mirrors `mapChargeToYouniumBillingPeriod`. -/
def mapChargeToYouniumBillingPeriod (charge : Json) : String :=
  if isOpensensePackageCharge charge then "annual"
  else
    let normalized := normalizeLookupKey ((chargePricePeriodRaw charge).getD "")
    if normalized == "monthly" then "monthly"
    else if normalized == "quarterly" then "quarterly"
    else if normalized == "biannual" || normalized == "semiannually" then "biannual"
    else if normalized == "endofterm" then "endOfTerm"
    else "annual"

/-- Mirrors `mapChargeToYouniumChargeModel`. -/
def mapChargeToYouniumChargeModel (charge : Json) : String :=
  if normalizeLookupKey ((asNonEmptyString (charge.getField "priceModel")).getD "") == "quantity"
  then "quantity" else "flat"

/-- The regex test `/one[\s-]?time/i` on a (lowercased) character list. -/
def oneTimeAt : List Char → Bool
  | 'o' :: 'n' :: 'e' :: rest =>
      match rest with
      | 't' :: 'i' :: 'm' :: 'e' :: _ => true
      | c :: 't' :: 'i' :: 'm' :: 'e' :: _ => c == '-' || c.isWhitespace
      | _ => false
  | _ => false

def matchesOneTimeAux : List Char → Bool
  | [] => false
  | c :: cs => oneTimeAt (c :: cs) || matchesOneTimeAux cs

def matchesOneTime (s : String) : Bool :=
  matchesOneTimeAux (s.toList.map Char.toLower)

/-- Mirrors `mapChargeToYouniumChargeType`. -/
def mapChargeToYouniumChargeType (charge : Json) (chargeName : String) : String :=
  let chargeType := normalizeLookupKey ((asNonEmptyString (charge.getField "chargeType")).getD "")
  if chargeType == "oneoff" || chargeType == "onetime" then "OneOff"
  else if chargeType == "recurring" then "recurring"
  else if matchesOneTime chargeName then "OneOff"
  else "recurring"

/-- Mirrors `toHubspotRecurringBillingPeriod` (`termMonths` is integral in
every caller, so `Math.floor` is the identity). -/
def toHubspotRecurringBillingPeriod (termMonths : ℤ) : String :=
  "P" ++ toString (max 1 termMonths) ++ "M"

/-! ## Line-item property building -/

/-- The nine configured HubSpot line-item property names. -/
structure LineItemPropNames where
  HS_LI_YOUNIUM_CHARGE_EFFECTIVE_START_DATE_PROP : String
  HS_LI_YOUNIUM_CHARGE_EFFECTIVE_END_DATE_PROP : String
  HS_LI_YOUNIUM_LINE_ITEM_STATUS_PROP : String
  HS_LI_YOUNIUM_ORDER_PRODUCT_CHARGE_PROP : String
  HS_LI_YOUNIUM_START_ON_PROP : String
  HS_LI_YOUNIUM_END_ON_PROP : String
  HS_LI_FINGERPRINT_PROP : String
  HS_LI_YOUNIUM_CHARGE_ID_PROP : String
  HS_LI_YOUNIUM_ORDER_CHARGE_ID_PROP : String
deriving DecidableEq, Repr

/-- JS object key assignment for string-valued records. -/
def recordSet (props : List (String × String)) (k v : String) : List (String × String) :=
  if props.any (fun p => p.1 == k) then
    props.map (fun p => if p.1 == k then (k, v) else p)
  else props ++ [(k, v)]

/-- A JS object literal with (possibly colliding) computed keys: later
entries overwrite earlier ones in place. -/
def recordOfPairs (pairs : List (String × String)) : List (String × String) :=
  pairs.foldl (fun acc p => recordSet acc p.1 p.2) []

/-- Record field lookup. -/
def lookupProp (props : List (String × String)) (k : String) : Option String :=
  (props.find? (fun p => p.1 == k)).map (fun p => p.2)

/-- Rendering of a JS number into a property string (`String(n)`); any
deterministic rendering serves the claims, which never inspect the text. -/
def ratToPropString (q : JsNum) : String :=
  if q.den == 1 then toString q.num else toString q.num ++ "/" ++ toString q.den

inductive ChargeBuildResult where
  | ok (chargeIdentifier : String) (fingerprint : String) (properties : List (String × String))
  | err (message : String)
deriving DecidableEq, Repr

/-- Mirrors `buildLineItemProperties`. -/
def buildLineItemProperties (charge : Json) (p : LineItemPropNames) (fingerprint : String)
    (forecastStartMs forecastEndYmd : String) (termMonths : ℤ) : ChargeBuildResult :=
  let chargeId :=
    match asNonEmptyString (charge.getField "chargeId") with
    | some v => some v
    | none => asNonEmptyString (charge.getField "id")
  let orderChargeId := asNonEmptyString (charge.getField "id")
  let chargeNumber := asNonEmptyString (charge.getField "chargeNumber")
  let chargeName :=
    match asNonEmptyString (charge.getField "name") with
    | some n => n
    | none =>
        match chargeNumber with
        | some n => n
        | none => chargeId.getD "Younium Charge"
  let rawQuantity := (asFiniteNumber (charge.getField "quantity")).getD 1
  let quantity := if rawQuantity.isPos then rawQuantity else 1
  let unitPrice := findUnitPrice charge
  let recurringBillingFrequency := mapChargeToRecurringFrequency charge termMonths
  match chargeId with
  | none => .err "Missing charge identifier (chargeId/id)"
  | some cid =>
      match chargeNumber with
      | none => .err ("Missing charge.chargeNumber for charge " ++ cid)
      | some cnum =>
          match unitPrice with
          | none => .err ("Missing price for charge " ++ cid)
          | some up =>
              match recurringBillingFrequency with
              | none =>
                  let pricePeriod := (chargePricePeriodRaw charge).getD "<missing>"
                  .err ("Unsupported pricePeriod " ++ pricePeriod ++ " for charge " ++ cid)
              | some freq =>
                  let isPkg := isOpensensePackageCharge charge
                  let annualizedPackagePrice :=
                    if isPkg && freq == "annually" then up.mul 12 else up
                  let unitPricePerQuantity :=
                    if isPkg then annualizedPackagePrice else up.div quantity
                  let youniumBillingPeriod := mapChargeToYouniumBillingPeriod charge
                  let youniumChargeType := mapChargeToYouniumChargeType charge chargeName
                  let youniumChargeModel := mapChargeToYouniumChargeModel charge
                  let normalizedUnitPrice :=
                    if unitPricePerQuantity.isNeg then 0 else unitPricePerQuantity
                  let unitDiscount : Option JsNum :=
                    if unitPricePerQuantity.isNeg then some unitPricePerQuantity.abs else none
                  let properties := recordOfPairs
                    [("name", chargeName),
                     ("quantity", ratToPropString quantity),
                     ("price", ratToPropString normalizedUnitPrice),
                     ("hs_recurring_billing_period", toHubspotRecurringBillingPeriod termMonths),
                     ("recurringbillingfrequency", freq),
                     ("younium_billing_period", youniumBillingPeriod),
                     ("younium_charge_model", youniumChargeModel),
                     ("younium_charge_type", youniumChargeType),
                     (p.HS_LI_YOUNIUM_CHARGE_EFFECTIVE_START_DATE_PROP, forecastStartMs),
                     (p.HS_LI_YOUNIUM_CHARGE_EFFECTIVE_END_DATE_PROP, forecastEndYmd),
                     (p.HS_LI_YOUNIUM_LINE_ITEM_STATUS_PROP, "Existing"),
                     (p.HS_LI_YOUNIUM_ORDER_PRODUCT_CHARGE_PROP, cnum),
                     (p.HS_LI_YOUNIUM_START_ON_PROP, "alignToOrder"),
                     (p.HS_LI_YOUNIUM_END_ON_PROP, "alignToOrder"),
                     (p.HS_LI_FINGERPRINT_PROP, fingerprint),
                     (p.HS_LI_YOUNIUM_CHARGE_ID_PROP, cid),
                     (p.HS_LI_YOUNIUM_ORDER_CHARGE_ID_PROP, orderChargeId.getD "")]
                  let properties :=
                    match unitDiscount with
                    | some d =>
                        if d.isPos then recordSet properties "discount" (ratToPropString d)
                        else properties
                    | none => properties
                  .ok cid fingerprint properties

/-! ## Fingerprints and the per-charge loop -/

/-- The `chargeId ?? id ?? chargeNumber` identifier fallback of the loop. -/
def chargeIdentifierOf (charge : Json) : Option String :=
  match asNonEmptyString (charge.getField "chargeId") with
  | some v => some v
  | none =>
      match asNonEmptyString (charge.getField "id") with
      | some v => some v
      | none => asNonEmptyString (charge.getField "chargeNumber")

/-- The fingerprint computed per charge line:
`subscription_id : term_end_date : chargeIdentifier : (orderChargeId or
the literal placeholder)`; `none` when no identifier is available. -/
def chargeFingerprint (subscriptionId termEndDate : String) (charge : Json) : Option String :=
  match chargeIdentifierOf charge with
  | none => none
  | some cid =>
      let ocid := (asNonEmptyString (charge.getField "id")).getD "no-order-charge-id"
      some (subscriptionId ++ ":" ++ termEndDate ++ ":" ++ cid ++ ":" ++ ocid)

/-- What the loop body decides for one eligible charge before any CRM
interaction: skip with an error message, or handle a line item with this
fingerprint and property payload. -/
inductive ChargePlan where
  | errorSkip (message : String)
  | lineItem (fingerprint : String) (properties : List (String × String))
deriving DecidableEq, Repr

/-- The pure head of the loop body: identifier and fingerprint computation
followed by `buildLineItemProperties`, with the two error exits. -/
def planCharge (subscriptionId termEndDate : String) (p : LineItemPropNames)
    (forecastStartMs forecastEndYmd : String) (termMonths : ℤ) (charge : Json) : ChargePlan :=
  match chargeFingerprint subscriptionId termEndDate charge with
  | none => .errorSkip "Skipping charge with missing chargeId/id/chargeNumber for fingerprint"
  | some fp =>
      match buildLineItemProperties charge p fp forecastStartMs forecastEndYmd termMonths with
      | .err m => .errorSkip m
      | .ok _ fp2 props => .lineItem fp2 props

/-- CRM line-item object. -/
structure CrmLineItem where
  id : String
  properties : List (String × String)
deriving DecidableEq, Repr

/-- The CRM's line-item collection with a fresh-id counter. -/
structure CrmState where
  items : List CrmLineItem
  nextId : Nat
deriving DecidableEq, Repr

/-- Mirrors `searchLineItemByFingerprint`: equality search on the
fingerprint property, first hit (limit 1). -/
def searchLineItemByFingerprint (crm : CrmState) (fingerprintPropertyName fingerprint : String) :
    Option String :=
  (crm.items.find? (fun it =>
    lookupProp it.properties fingerprintPropertyName == some fingerprint)).map (fun it => it.id)

/-- Mirrors `createHubSpotLineItem`: create with the given properties,
returning the fresh id. -/
def createHubSpotLineItem (crm : CrmState) (properties : List (String × String)) :
    String × CrmState :=
  let newId := "line-item-" ++ toString crm.nextId
  (newId,
   { items := crm.items ++ [{ id := newId, properties := properties }],
     nextId := crm.nextId + 1 })

/-- The mutable state of one `processLineItemsForRow` call (its counters,
capped sample lists, id lists and set, plus the CRM it talks to and the
trace of external calls it makes). -/
structure LiAcc where
  crm : CrmState
  createdCount : Nat
  dedupedCount : Nat
  errorCount : Nat
  lineItemIds : List String
  associatedLineItemIds : List String
  uniqueLineItemIds : List String
  errorSamples : List String
  dryRunPayloadSamples : List (List (String × String))
  dryRunFingerprintSamples : List String
  effects : List Effect
deriving DecidableEq, Repr

/-- Mirrors the loop's `pushError` closure (samples capped at 10). -/
def pushError (acc : LiAcc) (message : String) : LiAcc :=
  { acc with
    errorCount := acc.errorCount + 1,
    errorSamples :=
      if acc.errorSamples.length < 10 then acc.errorSamples ++ [message] else acc.errorSamples }

/-- Mirrors the loop's `pushLineItemId` closure (id list capped at 50,
associated list unbounded, both deduplicated through the id set). -/
def pushLineItemId (acc : LiAcc) (lineItemId : String) : LiAcc :=
  if acc.uniqueLineItemIds.contains lineItemId then acc
  else
    { acc with
      uniqueLineItemIds := acc.uniqueLineItemIds ++ [lineItemId],
      associatedLineItemIds := acc.associatedLineItemIds ++ [lineItemId],
      lineItemIds :=
        if acc.lineItemIds.length < 50 then acc.lineItemIds ++ [lineItemId]
        else acc.lineItemIds }

/-- The tail of the loop body: in dry-run mode collect samples and stop
before any CRM call; otherwise search-before-create, then associate, then
record the id.  (Association conflicts are success in the source; CRM
transport failures are outside this model.) -/
def processChargePlan (fingerprintProp : String) (dryRun : Bool) (acc : LiAcc)
    (plan : ChargePlan) : LiAcc :=
  match plan with
  | .errorSkip m => pushError acc m
  | .lineItem fp props =>
      if dryRun then
        { acc with
          dryRunPayloadSamples :=
            if acc.dryRunPayloadSamples.length < 5 then acc.dryRunPayloadSamples ++ [props]
            else acc.dryRunPayloadSamples,
          dryRunFingerprintSamples :=
            if acc.dryRunFingerprintSamples.length < 5 then acc.dryRunFingerprintSamples ++ [fp]
            else acc.dryRunFingerprintSamples }
      else
        match searchLineItemByFingerprint acc.crm fingerprintProp fp with
        | some existingId =>
            pushLineItemId
              { acc with
                dedupedCount := acc.dedupedCount + 1,
                effects := acc.effects ++ [Effect.searchLineItem, Effect.associateLineItem] }
              existingId
        | none =>
            let createRes := createHubSpotLineItem acc.crm props
            pushLineItemId
              { acc with
                crm := createRes.2,
                createdCount := acc.createdCount + 1,
                effects := acc.effects ++
                  [Effect.searchLineItem, Effect.createLineItem, Effect.associateLineItem] }
              createRes.1

/-- The loop over the planned charges. -/
def runPlans (fingerprintProp : String) (dryRun : Bool) : List ChargePlan → LiAcc → LiAcc
  | [], acc => acc
  | plan :: rest, acc =>
      runPlans fingerprintProp dryRun rest (processChargePlan fingerprintProp dryRun acc plan)

def initialLiAcc (crm : CrmState) : LiAcc :=
  { crm := crm, createdCount := 0, dedupedCount := 0, errorCount := 0,
    lineItemIds := [], associatedLineItemIds := [], uniqueLineItemIds := [],
    errorSamples := [], dryRunPayloadSamples := [], dryRunFingerprintSamples := [],
    effects := [] }

/-- Mirrors `processLineItemsForRow`: parse and filter the snapshot's
charges, then run the per-charge loop against the CRM. -/
def processLineItemsForRow (subscriptionId termEndDate : String) (p : LineItemPropNames)
    (forecastStartMs forecastEndYmd : String) (termMonths : ℤ) (dryRun : Bool)
    (chargesJson : Json) (crm : CrmState) : LiAcc :=
  let charges := (parseCharges chargesJson).filter isRecurringAndNotCancelled
  let plans := charges.map (planCharge subscriptionId termEndDate p forecastStartMs
    forecastEndYmd termMonths)
  runPlans p.HS_LI_FINGERPRINT_PROP dryRun plans (initialLiAcc crm)

/-! ## Snapshot selector (renewal-snapshot fetchPlannedRowsWithoutSnapshot)

The store is consulted once per loop iteration for a chunk of planned rows
and once for the matching snapshot keys; both results may reflect
concurrent writes, so they are supplied per iteration as a `ScanStep`
sequence (an exhausted sequence behaves as an empty chunk, i.e. an
exhausted table). -/

structure LedgerKeyRow where
  subscription_id : String
  term_end_date : String
deriving DecidableEq, Repr

/-- Mirrors `keyOf`. -/
def keyOf (r : LedgerKeyRow) : String :=
  r.subscription_id ++ "::" ++ r.term_end_date

structure ScanStep where
  plannedRows : List LedgerKeyRow
  snapshotRows : List LedgerKeyRow
deriving DecidableEq, Repr

/-- JS `Map.set` on an association list: first-insertion position, last
value wins. -/
def jsMapSet (m : List (String × LedgerKeyRow)) (k : String) (v : LedgerKeyRow) :
    List (String × LedgerKeyRow) :=
  if m.any (fun p => p.1 == k) then
    m.map (fun p => if p.1 == k then (k, v) else p)
  else m ++ [(k, v)]

/-- The chunk deduplication: drop rows with empty key fields, then key the
rest through a JS `Map` and take its values in order. -/
def uniquePlannedOf (rows : List LedgerKeyRow) : List LedgerKeyRow :=
  (rows.foldl (fun m r =>
      if r.subscription_id == "" || r.term_end_date == "" then m
      else jsMapSet m (keyOf r) r) []).map (fun p => p.2)

/-- The snapshot-key set consulted for a chunk: empty when there are no
subscription ids to query, else the keys of the store's returned snapshot
rows. -/
def stepSnapshotKeys (uniq : List LedgerKeyRow) (snapshotRows : List LedgerKeyRow) :
    List String :=
  if uniq.isEmpty then [] else snapshotRows.map keyOf

/-- The inner selection loop over one deduplicated chunk: skip keys already
snapshotted or already selected, push the rest, stop at `batchSize`. -/
def selectFromChunk (batchSize : Nat) (snapKeys : List String) :
    List LedgerKeyRow → List LedgerKeyRow → List String → List LedgerKeyRow × List String
  | [], selected, selectedKeys => (selected, selectedKeys)
  | r :: rest, selected, selectedKeys =>
      let rowKey := keyOf r
      if snapKeys.contains rowKey || selectedKeys.contains rowKey then
        selectFromChunk batchSize snapKeys rest selected selectedKeys
      else
        let selected2 := selected ++ [r]
        let selectedKeys2 := selectedKeys ++ [rowKey]
        if batchSize ≤ selected2.length then (selected2, selectedKeys2)
        else selectFromChunk batchSize snapKeys rest selected2 selectedKeys2

/-- The outer scan loop (`while selected.length < batchSize`), with its
three exits: store exhausted (empty chunk), batch filled, and short chunk. -/
def scanLoop (batchSize scanChunk : Nat) :
    List ScanStep → List LedgerKeyRow → List String → List LedgerKeyRow
  | [], selected, _ => selected
  | step :: rest, selected, selectedKeys =>
      if batchSize ≤ selected.length then selected
      else if step.plannedRows.isEmpty then selected
      else
        let uniq := uniquePlannedOf step.plannedRows
        let snapKeys := stepSnapshotKeys uniq step.snapshotRows
        let sel2 := selectFromChunk batchSize snapKeys uniq selected selectedKeys
        if step.plannedRows.length < scanChunk then sel2.1
        else scanLoop batchSize scanChunk rest sel2.1 sel2.2

/-- The unfiltered branch of `fetchPlannedRowsWithoutSnapshot`. -/
def fetchPlannedUnfiltered (batchSize : Nat) (steps : List ScanStep) : List LedgerKeyRow :=
  scanLoop batchSize (max (batchSize * 3) batchSize) steps [] []

/-- The source-deal-filtered branch: one query limited to `batchSize`
(`filteredRowsStore.take batchSize` embeds the SQL `limit`), subtract the
returned snapshot keys. -/
def fetchPlannedFiltered (batchSize : Nat) (filteredRowsStore snapshotRows : List LedgerKeyRow) :
    List LedgerKeyRow :=
  let filteredRows := filteredRowsStore.take batchSize
  if filteredRows.isEmpty then []
  else
    let existingSnapshotKeys := snapshotRows.map keyOf
    filteredRows.filter (fun r => !(existingSnapshotKeys.contains (keyOf r)))

/-! ## Charges pagination (renewal-snapshot fetchChargesPage / fetchAllCharges) -/

/-- An HTTP response as the page fetcher sees it: status, raw text, and the
result of `JSON.parse` on that text (`none` when unparseable). -/
structure HttpResponse where
  status : Nat
  text : String
  body : Option Json

def respOk (r : HttpResponse) : Bool :=
  200 ≤ r.status && r.status < 300

def endOfPaginationMessages : List String :=
  ["No order product charge could be found",
   "No subscriptions of latest version could be found"]

/-- The `errors.message` extraction of the 400 branch: `errors` must be a
non-null object value (arrays fall through to a missing `message`), and
`message` may be a string or an array of strings. -/
def extractErrorMessageValues (body : Option Json) : List String :=
  match body with
  | some parsed =>
      match parsed.getField "errors" with
      | .obj fields =>
          match (Json.obj fields).getField "message" with
          | .arr xs => xs.filterMap (fun v => match v with | .str s => some s | _ => none)
          | .str s => [s]
          | _ => []
      | _ => []
  | none => []

def isEndOfPagination (body : Option Json) : Bool :=
  (extractErrorMessageValues body).any (fun responseMessage =>
    endOfPaginationMessages.any (fun knownMessage => strIncludes responseMessage knownMessage))

/-- Mirrors `fetchChargesPage` given the provider's response for
`(orderId, pageNumber)`. -/
def fetchChargesPage (resp : HttpResponse) (orderId : String) (pageNumber : Nat) :
    Except String (List Json) :=
  if respOk resp then
    match resp.body with
    | none =>
        .error ("Failed to parse charges JSON for order " ++ orderId ++ ", page "
          ++ toString pageNumber ++ ": " ++ resp.text)
    | some payload => .ok (parseArrayPayload payload)
  else
    if resp.status == 400 && isEndOfPagination resp.body then .ok []
    else
      .error ("Charges request failed (" ++ toString resp.status ++ ") for order " ++ orderId
        ++ ", page " ++ toString pageNumber ++ ": " ++ resp.text)

/-- Mirrors `fetchAllCharges`: accumulate pages until a page comes back
empty.  `responses` supplies the provider's response per page number, in
order; an exhausted list is an exhausted provider (empty page). -/
def fetchAllCharges (orderId : String) (pageNumber : Nat) :
    List HttpResponse → Except String (List Json)
  | [] => .ok []
  | resp :: rest =>
      match fetchChargesPage resp orderId pageNumber with
      | .error e => .error e
      | .ok charges =>
          if charges.isEmpty then .ok []
          else
            match fetchAllCharges orderId (pageNumber + 1) rest with
            | .error e => .error e
            | .ok more => .ok (charges ++ more)

/-! ## Snapshot run orchestrator batch loop (renewal-snapshot handler)

`fetchBatch k` is the ledger batch the selector returns on the iteration
with `batchesProcessed = k`.  The loop is total by construction: its fuel
is the remaining batch budget `maxBatches - batchesProcessed`. -/

def batchLoop (fetchBatch : Nat → List LedgerKeyRow) (batchSize : Nat) (filtered : Bool) :
    Nat → Nat → Nat
  | 0, batchesProcessed => batchesProcessed
  | fuel + 1, batchesProcessed =>
      let ledgerBatch := fetchBatch batchesProcessed
      if ledgerBatch.length == 0 then batchesProcessed
      else
        let batchesProcessed2 := batchesProcessed + 1
        if ledgerBatch.length < batchSize then batchesProcessed2
        else if filtered then batchesProcessed2
        else batchLoop fetchBatch batchSize filtered fuel batchesProcessed2

/-- Number of batches the snapshot handler's loop processes. -/
def runBatches (fetchBatch : Nat → List LedgerKeyRow) (batchSize maxBatches : Nat)
    (filtered : Bool) : Nat :=
  batchLoop fetchBatch batchSize filtered maxBatches 0

/-! ## Per-row processing of the create handler (hubspot-renewal-create)

The loop body over one `renewals_ready_for_hubspot` row, with external
call results supplied by a `RowEnv` oracle.  `Except.error` values are
exceptions reaching the row-level catch.  The pure forecast-date
computation is supplied as an oracle too (its only behavioural content is
the formatted values it yields and its possibility of throwing on
malformed dates).  DB errors of the supabase client and the deal-payload
field copying (pure, no effects) are outside the model. -/

structure ReadyRow where
  subscription_id : String
  term_end_date : String
  source_hubspot_deal_id : String
  younium_charges_json : Json

/-- Outcome of the source-deal GET when it does not throw. -/
inductive SourceDealFetch where
  | notFound (message : String)
  | httpError (message : String)
  | okDeal (sourceDealId : Option String)

/-- The already-formatted products of `calculateForecastDates` and the
date formatters. -/
structure ForecastData where
  forecastStartMs : String
  forecastEndYmd : String
  termMonths : ℤ

/-- Outcome of the deal-creation POST when it does not throw. -/
inductive CreateDealOutcome where
  | httpError (message : String)
  | okDeal (createdDealId : Option String)

structure RowEnv where
  sourceDeal : Except String SourceDealFetch
  forecast : Except String ForecastData
  companyDomain : Except String (Option String)
  createDeal : Except String CreateDealOutcome
  /-- `fetchLineItemsNetTcv` + `updateDealAmount`, carrying the formatted
  amount on success; a failure is caught inline and only counted. -/
  amountOps : Except String String

structure ProcState where
  ledger : LedgerStore
  crm : CrmState
  domainCache : List (String × Option String)

inductive RowOutcome where
  | rowError (message : String)
  | dryRunReport
  | skippedLocked
  | createdOk (createdDealId : String)
deriving DecidableEq, Repr

/-- The metadata block the handler adds when line items were processed. -/
def lineItemsMetaOf (createdCount dedupedCount errorCount : Nat) (lineItemIds : List String)
    (nowIso : String) : Metadata :=
  [("line_items_created_count", toString createdCount),
   ("line_items_deduped_count", toString dedupedCount),
   ("line_items_error_count", toString errorCount),
   ("line_item_ids", toString lineItemIds),
   ("last_line_item_run_at", nowIso)]

/-- One iteration of the create handler's row loop. -/
def processRow (dryRun createLineItems : Bool) (p : LineItemPropNames) (row : ReadyRow)
    (env : RowEnv) (runMode nowIso : String) (st : ProcState) :
    RowOutcome × ProcState × List Effect :=
  match env.sourceDeal with
  | .error m =>
      -- the fetch threw: row-level catch with rowClaimed still false
      (.rowError m, st, [Effect.fetchSourceDeal])
  | .ok (.notFound msg) =>
      if dryRun then (.rowError msg, st, [Effect.fetchSourceDeal])
      else
        (.rowError msg,
         { st with ledger := (markLedgerError st.ledger row.subscription_id row.term_end_date
             row.source_hubspot_deal_id msg nowIso []) },
         [Effect.fetchSourceDeal, Effect.ledgerMarkError])
  | .ok (.httpError msg) =>
      (.rowError msg, st, [Effect.fetchSourceDeal])
  | .ok (.okDeal _) =>
      match env.forecast with
      | .error m =>
          -- forecast-date computation threw: caught unclaimed
          (.rowError m, st, [Effect.fetchSourceDeal])
      | .ok fc =>
          -- company-domain resolution, cached per source deal; fetch
          -- failures are caught inline and resolved to a null domain
          let cached := st.domainCache.find? (fun q => q.1 == row.source_hubspot_deal_id)
          let domainStep : ProcState × List Effect :=
            match cached with
            | some _ => (st, [])
            | none =>
                let dom :=
                  match env.companyDomain with
                  | .ok d => d
                  | .error _ => none
                ({ st with domainCache := st.domainCache ++ [(row.source_hubspot_deal_id, dom)] },
                 [Effect.fetchCompanyDomain])
          let st1 := domainStep.1
          let effs0 := Effect.fetchSourceDeal :: domainStep.2
          if dryRun then
            if createLineItems then
              let li := processLineItemsForRow row.subscription_id row.term_end_date p
                fc.forecastStartMs fc.forecastEndYmd fc.termMonths true
                row.younium_charges_json st1.crm
              (.dryRunReport, { st1 with crm := li.crm }, effs0 ++ li.effects)
            else (.dryRunReport, st1, effs0)
          else
            let claimRes := claimLedgerForProcessing st1.ledger row.subscription_id
              row.term_end_date nowIso
            let st2 := { st1 with ledger := claimRes.2 }
            let effs1 := effs0 ++ [Effect.ledgerClaim]
            if !claimRes.1 then (.skippedLocked, st2, effs1)
            else
              match env.createDeal with
              | .error m =>
                  -- the POST threw: caught with rowClaimed and no deal id
                  (.rowError m,
                   { st2 with ledger := (releaseLedgerForRetry st2.ledger row.subscription_id
                       row.term_end_date row.source_hubspot_deal_id m nowIso) },
                   effs1 ++ [Effect.createDeal, Effect.ledgerRelease])
              | .ok (.httpError m) =>
                  let msg := "Failed to create forecast deal: " ++ m
                  (.rowError msg,
                   { st2 with ledger := (releaseLedgerForRetry st2.ledger row.subscription_id
                       row.term_end_date row.source_hubspot_deal_id msg nowIso) },
                   effs1 ++ [Effect.createDeal, Effect.ledgerRelease])
              | .ok (.okDeal none) =>
                  let msg := "HubSpot create deal response missing id"
                  (.rowError msg,
                   { st2 with ledger := (markLedgerError st2.ledger row.subscription_id
                       row.term_end_date row.source_hubspot_deal_id msg nowIso []) },
                   effs1 ++ [Effect.createDeal, Effect.ledgerMarkError])
              | .ok (.okDeal (some createdDealId)) =>
                  if createLineItems then
                    let li := processLineItemsForRow row.subscription_id row.term_end_date p
                      fc.forecastStartMs fc.forecastEndYmd fc.termMonths false
                      row.younium_charges_json st2.crm
                    let st3 := { st2 with crm := li.crm }
                    let amountStep : Option String × Nat × List Effect :=
                      if 0 < li.associatedLineItemIds.length then
                        match env.amountOps with
                        | .ok amount =>
                            (some amount, li.errorCount,
                             [Effect.fetchNetTcv, Effect.updateDealAmount])
                        | .error _ => (none, li.errorCount + 1, [Effect.fetchNetTcv])
                      else (none, li.errorCount, [])
                    let liMeta := lineItemsMetaOf li.createdCount li.dedupedCount
                      amountStep.2.1 li.lineItemIds nowIso
                    (.createdOk createdDealId,
                     { st3 with ledger := (handlerMarkCreated st3.ledger row.subscription_id
                         row.term_end_date row.source_hubspot_deal_id createdDealId
                         amountStep.1 runMode nowIso liMeta) },
                     effs1 ++ [Effect.createDeal] ++ li.effects ++ amountStep.2.2
                       ++ [Effect.ledgerMarkCreated])
                  else
                    (.createdOk createdDealId,
                     { st2 with ledger := (handlerMarkCreated st2.ledger row.subscription_id
                         row.term_end_date row.source_hubspot_deal_id createdDealId
                         none runMode nowIso []) },
                     effs1 ++ [Effect.createDeal, Effect.ledgerMarkCreated])

/-! ## Concrete sample data -/

def emptyCrm : CrmState := { items := [], nextId := 0 }

/-- A concrete line-item property-name configuration (all nine names
distinct, as the env configuration provides). -/
def demoProps : LineItemPropNames :=
  { HS_LI_YOUNIUM_CHARGE_EFFECTIVE_START_DATE_PROP := "younium_charge_effective_start_date",
    HS_LI_YOUNIUM_CHARGE_EFFECTIVE_END_DATE_PROP := "younium_charge_effective_end_date",
    HS_LI_YOUNIUM_LINE_ITEM_STATUS_PROP := "younium_line_item_status",
    HS_LI_YOUNIUM_ORDER_PRODUCT_CHARGE_PROP := "younium_order_product_charge",
    HS_LI_YOUNIUM_START_ON_PROP := "younium_start_on",
    HS_LI_YOUNIUM_END_ON_PROP := "younium_end_on",
    HS_LI_FINGERPRINT_PROP := "younium_fingerprint",
    HS_LI_YOUNIUM_CHARGE_ID_PROP := "younium_charge_id",
    HS_LI_YOUNIUM_ORDER_CHARGE_ID_PROP := "younium_order_charge_id" }

/-- A recurring, non-cancelled charge with every field the builder needs,
parameterised by its order-charge id. -/
def sampleCharge (orderChargeId : String) : Json :=
  Json.obj
    [("chargeId", Json.str "charge-1"),
     ("id", Json.str orderChargeId),
     ("chargeNumber", Json.str "C-100"),
     ("name", Json.str "Seats"),
     ("chargeType", Json.str "Recurring"),
     ("changeState", Json.str "New"),
     ("displayPrice", Json.num 10),
     ("quantity", Json.num 2),
     ("pricePeriod", Json.str "Monthly")]

def baseRow : LedgerRow :=
  { subscription_id := "sub-1", term_end_date := "2025-06-30", status := .planned,
    created_source := some "auto", source_hubspot_deal_id := some "deal-src",
    hubspot_deal_id := none, metadata := [], updated_at := "t0" }

def rowCreatedA : LedgerRow :=
  { baseRow with status := .created, hubspot_deal_id := some "deal-A" }

def rowCreatedNoDeal : LedgerRow :=
  { baseRow with status := .created, hubspot_deal_id := none }

def rowErrored : LedgerRow :=
  { baseRow with status := .error }

/-- A provider response carrying one charge page. -/
def respOnePage : HttpResponse :=
  { status := 200, text := "[...]", body := some (Json.arr [sampleCharge "oc-1"]) }

/-- The provider's 400 "no more results" response. -/
def respEndOfPages : HttpResponse :=
  { status := 400, text := "no more",
    body := some (Json.obj
      [("errors", Json.obj
        [("message", Json.str "No order product charge could be found (code 404)")])]) }

/-- A plain provider failure. -/
def respFailure : HttpResponse :=
  { status := 500, text := "boom", body := none }

def scanRowA : LedgerKeyRow := { subscription_id := "sub-a", term_end_date := "2025-01-31" }

def scanRowB : LedgerKeyRow := { subscription_id := "sub-b", term_end_date := "2025-02-28" }

def scanRowC : LedgerKeyRow := { subscription_id := "sub-c", term_end_date := "2025-03-31" }

/-- One scan step whose store already holds a snapshot for `scanRowA`. -/
def sampleStep : ScanStep :=
  { plannedRows := [scanRowA, scanRowB, scanRowA, scanRowC],
    snapshotRows := [scanRowA] }

/-- A charge payload holding two charges with the same `chargeId` but
different order-charge ids. -/
def demoChargesJson : Json := Json.arr [sampleCharge "oc-1", sampleCharge "oc-2"]

/-- First materialize pass over the demo payload against an empty CRM. -/
def demoRun1 : LiAcc :=
  processLineItemsForRow "sub-1" "2025-06-30" demoProps "1750000000000" "2025-06-30" 12 false
    demoChargesJson emptyCrm

/-- Second materialize pass over the same payload against the CRM the first
pass left behind. -/
def demoRun2 : LiAcc :=
  processLineItemsForRow "sub-1" "2025-06-30" demoProps "1750000000000" "2025-06-30" 12 false
    demoChargesJson demoRun1.crm

/-- A charge payload holding the same charge twice (identical `chargeId`
and identical order-charge id). -/
def demoDupJson : Json := Json.arr [sampleCharge "oc-1", sampleCharge "oc-1"]

/-- The property payload the planner computes for the demo charge. -/
def demoPlan1Props : List (String × String) :=
  match planCharge "sub-1" "2025-06-30" demoProps "1750000000000" "2025-06-30" 12
      (sampleCharge "oc-1") with
  | ChargePlan.lineItem _ props => props
  | ChargePlan.errorSkip _ => []

/-- The correspondence between a first `runPlans` pass (from `acc1`) and a
second pass (from `acc2`) that starts on the CRM the first pass left
behind: the second pass has created nothing, has deduplicated everything
the first pass created or deduplicated, and agrees on every reported list.
`RunRel fpProp [] f1 f2` is the idempotence statement itself. -/
def RunRel (fpProp : String) (plans : List ChargePlan) (acc1 acc2 : LiAcc) : Prop :=
  acc2.crm = (runPlans fpProp false plans acc1).crm ∧
  acc2.createdCount = 0 ∧
  acc2.dedupedCount = acc1.createdCount + acc1.dedupedCount ∧
  acc2.errorCount = acc1.errorCount ∧
  acc2.errorSamples = acc1.errorSamples ∧
  acc2.lineItemIds = acc1.lineItemIds ∧
  acc2.associatedLineItemIds = acc1.associatedLineItemIds ∧
  acc2.uniqueLineItemIds = acc1.uniqueLineItemIds

/-! ## Theorems -/

theorem claimMatches_update_false (r : LedgerRow) (s t nowIso : String) :
    claimMatches { r with status := .processing, updated_at := nowIso } s t = false := by
  simp [claimMatches]

theorem claim_result_no_match (store : LedgerStore) (s t nowIso : String) :
    ∀ r ∈ (claimLedgerForProcessing store s t nowIso).2, claimMatches r s t = false := by
  intro r hr
  simp only [claimLedgerForProcessing, List.mem_map] at hr
  obtain ⟨a, _, rfl⟩ := hr
  by_cases h : claimMatches a s t = true
  · simp [h, claimMatches_update_false]
  · simp only [h, if_false, Bool.if_false_left]
    simpa using h

theorem claim_false_of_no_match (store : LedgerStore) (s t nowIso : String)
    (h : ∀ r ∈ store, claimMatches r s t = false) :
    (claimLedgerForProcessing store s t nowIso).1 = false := by
  simp only [claimLedgerForProcessing]
  rw [List.any_eq_false]
  intro r hr
  simp [h r hr]

theorem claim_twice_false (store : LedgerStore) (s t n1 n2 : String) :
    (claimLedgerForProcessing (claimLedgerForProcessing store s t n1).2 s t n2).1 = false :=
  claim_false_of_no_match _ s t n2 (claim_result_no_match store s t n1)

theorem claimRepeatedly_zero (s t : String) (nows : List String) :
    ∀ store : LedgerStore, (∀ r ∈ store, claimMatches r s t = false) →
      (claimRepeatedly store s t nows).1 = 0 := by
  induction nows with
  | nil => intro store _; rfl
  | cons n rest ih =>
      intro store h
      have hfirst : (claimLedgerForProcessing store s t n).1 = false :=
        claim_false_of_no_match store s t n h
      have hrest := ih (claimLedgerForProcessing store s t n).2 (claim_result_no_match store s t n)
      simp [claimRepeatedly, hfirst, hrest]

theorem claimRepeatedly_le_one (store : LedgerStore) (s t : String) (nows : List String) :
    (claimRepeatedly store s t nows).1 ≤ 1 := by
  cases nows with
  | nil => simp [claimRepeatedly]
  | cons n rest =>
      have hrest := claimRepeatedly_zero s t rest (claimLedgerForProcessing store s t n).2
        (claim_result_no_match store s t n)
      simp only [claimRepeatedly, hrest]
      cases (claimLedgerForProcessing store s t n).1 <;> simp

/-- Claim C1: `claimLedgerForProcessing` is a single conditional write that
moves a row from `planned` to `processing` only while `hubspot_deal_id` is
still null; it returns true exactly when such a row existed (i.e. was
actually updated), an immediate second claim on the same key returns false,
and among any number of sequential claim attempts on one key at most one
succeeds. -/
theorem claim_at_most_one_success (store : LedgerStore) (s t n1 n2 : String)
    (nows : List String) :
    ((claimLedgerForProcessing store s t n1).1 = true ↔
      ∃ r ∈ store, r.subscription_id = s ∧ r.term_end_date = t ∧
        r.status = LedgerStatus.planned ∧ r.hubspot_deal_id = none)
    ∧ (claimLedgerForProcessing (claimLedgerForProcessing store s t n1).2 s t n2).1 = false
    ∧ (claimRepeatedly store s t nows).1 ≤ 1 := by
  refine ⟨?_, claim_twice_false store s t n1 n2, claimRepeatedly_le_one store s t nows⟩
  simp [claimLedgerForProcessing, List.any_eq_true, claimMatches, rowHasKey,
    Option.isNone_iff_eq_none, and_assoc]

/-- Claim C6: `releaseLedgerForRetry` moves a row back to `planned` only
while it is still `processing`; on a store whose key rows are in any other
state (for example already `created`) it is a complete no-op, leaving
status, metadata and every other field unchanged. -/
theorem releaseForRetry_noop_when_not_processing (store : LedgerStore)
    (s t src msg now : String)
    (h : ∀ r ∈ store, r.subscription_id = s → r.term_end_date = t →
      r.status ≠ LedgerStatus.processing) :
    releaseLedgerForRetry store s t src msg now = store := by
  simp only [releaseLedgerForRetry]
  have hcong : ∀ r ∈ store,
      (if rowHasKey r s t && r.status == LedgerStatus.processing then
        { r with status := .planned,
                 metadata := releaseMergedMeta store s t src msg now,
                 updated_at := now }
      else r) = r := by
    intro r hr
    have hfalse : (rowHasKey r s t && r.status == LedgerStatus.processing) = false := by
      by_cases hk : rowHasKey r s t = true
      · have hkey : r.subscription_id = s ∧ r.term_end_date = t := by
          simpa [rowHasKey] using hk
        have hst := h r hr hkey.1 hkey.2
        simp [hk, hst]
      · simp [Bool.eq_false_iff.mpr hk]
    simp [hfalse]
  rw [List.map_congr_left hcong]
  simp

theorem releaseForRetry_noop_witness :
    (∀ r ∈ [rowCreatedA], r.subscription_id = "sub-1" → r.term_end_date = "2025-06-30" →
      r.status ≠ LedgerStatus.processing) ∧
    releaseLedgerForRetry [rowCreatedA] "sub-1" "2025-06-30" "deal-src" "transient failure" "t1"
      = [rowCreatedA] :=
  ⟨by decide,
   releaseForRetry_noop_when_not_processing [rowCreatedA] "sub-1" "2025-06-30" "deal-src"
     "transient failure" "t1" (by decide)⟩

/-- Claim C2 (amended): `claim` and `releaseForRetry` are single
conditional writes whose predicates match on the current status (and, for
`claim`, on a null deal id): rows not satisfying the predicate are left
untouched.  The create handler's `created` update and `markError`, however,
are matched on the row key only: they rewrite a key-matching row whatever
its current status, so the `created` update can overwrite an
already-`created` row (including its deal id). -/
theorem status_write_predicates (store : LedgerStore)
    (s t src created msg runMode now : String) (calcAmount : Option String)
    (liMeta extra : Metadata) (i : Nat) (r : LedgerRow) (hr : store[i]? = some r) :
    (claimMatches r s t = false →
      (claimLedgerForProcessing store s t now).2[i]? = some r)
    ∧ ((rowHasKey r s t && r.status == LedgerStatus.processing) = false →
      (releaseLedgerForRetry store s t src msg now)[i]? = some r)
    ∧ (rowHasKey r s t = true →
      (handlerMarkCreated store s t src created calcAmount runMode now liMeta)[i]? =
        some { r with
               hubspot_deal_id := some created, status := .created,
               metadata := (markCreatedMergedMeta store s t src created calcAmount runMode now
                 liMeta),
               updated_at := now })
    ∧ (rowHasKey r s t = true →
      (markLedgerError store s t src msg now extra)[i]? =
        some { r with
               status := .error,
               metadata := markErrorMergedMeta store s t src msg now extra,
               updated_at := now }) := by
  refine ⟨?_, ?_, ?_, ?_⟩
  · intro hm
    simp only [claimLedgerForProcessing]
    rw [List.getElem?_map, hr]
    simp only [Option.map_some']
    rw [if_neg]
    simp [hm]
  · intro hm
    simp only [releaseLedgerForRetry]
    rw [List.getElem?_map, hr]
    simp only [Option.map_some']
    rw [if_neg]
    simp [hm]
  · intro hm
    simp only [handlerMarkCreated]
    rw [List.getElem?_map, hr]
    simp only [Option.map_some']
    rw [if_pos hm]
  · intro hm
    simp only [markLedgerError]
    rw [List.getElem?_map, hr]
    simp only [Option.map_some']
    rw [if_pos hm]

theorem status_write_predicates_witness :
    ([rowCreatedA] : LedgerStore)[0]? = some rowCreatedA ∧
    rowCreatedA.status = LedgerStatus.created ∧
    (handlerMarkCreated [rowCreatedA] "sub-1" "2025-06-30" "deal-src" "deal-B" none "test" "t1"
      [])[0]? =
      some { rowCreatedA with
             hubspot_deal_id := some "deal-B", status := .created,
             metadata := (markCreatedMergedMeta [rowCreatedA] "sub-1" "2025-06-30" "deal-src"
               "deal-B" none "test" "t1" []),
             updated_at := "t1" } :=
  ⟨rfl, rfl,
   (status_write_predicates [rowCreatedA] "sub-1" "2025-06-30" "deal-src" "deal-B" "m" "test"
     "t1" none [] [] 0 rowCreatedA rfl).2.2.1 (by decide)⟩

/-- Claim C2 counterexample: the handler's `created` write carries no
predicate on the current status or deal id — applied where the key row is
already `created` with deal id `deal-A`, it still writes and replaces the
created deal id with `deal-B`. -/
theorem status_write_unconditional_counterexample :
    rowCreatedA.status = LedgerStatus.created ∧
    rowCreatedA.hubspot_deal_id = some "deal-A" ∧
    ((handlerMarkCreated [rowCreatedA] "sub-1" "2025-06-30" "deal-src" "deal-B" none "test" "t1"
      []).map (fun r => (r.status, r.hubspot_deal_id))) =
      [(LedgerStatus.created, some "deal-B")] := by
  decide

theorem rowHasKey_of_update_source (a : LedgerRow) (s t src : String) (merged : Metadata)
    (n : String) :
    rowHasKey { a with source_hubspot_deal_id := some src, metadata := merged,
                       updated_at := n } s t = rowHasKey a s t := by
  simp [rowHasKey]

theorem rowHasKey_of_update_requeue (a : LedgerRow) (s t src : String) (merged : Metadata)
    (n : String) :
    rowHasKey { a with status := .planned, source_hubspot_deal_id := some src,
                       metadata := merged, updated_at := n } s t = rowHasKey a s t := by
  simp [rowHasKey]

theorem countP_key_if_map (s t : String) (upd : LedgerRow → LedgerRow)
    (hupd : ∀ r, rowHasKey (upd r) s t = rowHasKey r s t) :
    ∀ l : List LedgerRow,
      (l.map (fun r => if rowHasKey r s t then upd r else r)).countP
        (fun r => rowHasKey r s t) = l.countP (fun r => rowHasKey r s t)
  | [] => rfl
  | a :: as => by
      simp only [List.map_cons, List.countP_cons]
      rw [countP_key_if_map s t upd hupd as]
      by_cases hk : rowHasKey a s t = true
      · rw [if_pos hk, hupd a]
      · rw [if_neg hk]

/-- Claim C7 (amended): planning the same `(subscription_id, term_end_date)`
key twice through `upsertManualQueueRow` leaves exactly one ledger row for
that key; a second planning of a row whose created deal id is set reports
that the renewal already exists and writes nothing; and a row sitting in
`error` with no created deal id is re-queued to `planned`.  (The source
keys the "already created" short-circuit on the created-deal-id column, not
on the status value.) -/
theorem upsertPlanned_round_trip (store : LedgerStore) (s t src cid custid n1 n2 : String) :
    ((∀ r ∈ store, rowHasKey r s t = false) →
      (upsertManualQueueRow store s t src cid custid n1).1 = .queued_new ∧
      (upsertManualQueueRow (upsertManualQueueRow store s t src cid custid n1).2 s t src cid
        custid n2).1 = .already_queued ∧
      (upsertManualQueueRow (upsertManualQueueRow store s t src cid custid n1).2 s t src cid
        custid n2).2.countP (fun r => rowHasKey r s t) = 1)
    ∧ (∀ row, loadLedgerRow store s t = some row →
        row.status = LedgerStatus.created →
        (asNonEmptyStringOpt row.hubspot_deal_id).isSome = true →
        upsertManualQueueRow store s t src cid custid n1 = (.already_created, store))
    ∧ (∀ row, loadLedgerRow store s t = some row →
        row.status = LedgerStatus.error →
        (asNonEmptyStringOpt row.hubspot_deal_id).isSome = false →
        (upsertManualQueueRow store s t src cid custid n1).1 = .requeued_from_error ∧
        ∀ r ∈ (upsertManualQueueRow store s t src cid custid n1).2,
          rowHasKey r s t = true → r.status = LedgerStatus.planned) := by
  refine ⟨?_, ?_, ?_⟩
  · intro h0
    have hload : loadLedgerRow store s t = none := by
      simp only [loadLedgerRow]
      rw [List.find?_eq_none]
      intro r hr
      simp [h0 r hr]
    have hstep1 :
        upsertManualQueueRow store s t src cid custid n1 =
          (.queued_new, store ++
            [{ subscription_id := s, term_end_date := t, status := .planned,
               created_source := some "manual", source_hubspot_deal_id := some src,
               hubspot_deal_id := none,
               metadata := manualQueueMergedMeta [] src cid custid n1,
               updated_at := n1 }]) := by
      simp [upsertManualQueueRow, hload]
    set newRow : LedgerRow :=
      { subscription_id := s, term_end_date := t, status := .planned,
        created_source := some "manual", source_hubspot_deal_id := some src,
        hubspot_deal_id := none,
        metadata := manualQueueMergedMeta [] src cid custid n1,
        updated_at := n1 } with hnew
    have hkeynew : rowHasKey newRow s t = true := by simp [rowHasKey, hnew]
    have hfind : List.find? (fun r => rowHasKey r s t) (store ++ [newRow]) = some newRow := by
      rw [List.find?_append]
      have h1 : List.find? (fun r => rowHasKey r s t) store = none := by
        rw [List.find?_eq_none]
        intro r hr
        simp [h0 r hr]
      rw [h1]
      simp [hkeynew]
    have hload2 : loadLedgerRow (store ++ [newRow]) s t = some newRow := by
      simpa [loadLedgerRow] using hfind
    have hdeal2 : (asNonEmptyStringOpt newRow.hubspot_deal_id).isSome = false := by
      simp [hnew, asNonEmptyStringOpt]
    have hstatus2 : newRow.status = LedgerStatus.planned := by simp [hnew]
    refine ⟨by rw [hstep1], ?_, ?_⟩
    · rw [hstep1]
      simp [upsertManualQueueRow, hload2, hdeal2, hstatus2]
    · rw [hstep1]
      simp only [upsertManualQueueRow, hload2, hdeal2, hstatus2]
      rw [if_neg Bool.false_ne_true]
      have hupd : ∀ r : LedgerRow,
          rowHasKey { r with
                      source_hubspot_deal_id := some src,
                      metadata := (manualQueueMergedMeta
                        (manualQueueMergedMeta [] src cid custid n1) src cid custid n2),
                      updated_at := n2 } s t = rowHasKey r s t :=
        fun r => by simp [rowHasKey]
      rw [countP_key_if_map s t _ hupd (store ++ [newRow])]
      rw [List.countP_append]
      have hz : store.countP (fun r => rowHasKey r s t) = 0 := by
        rw [List.countP_eq_zero]
        intro r hr
        simp [h0 r hr]
      simp [hz, hkeynew]
  · intro row hload hst hdeal
    simp [upsertManualQueueRow, hload, hdeal]
  · intro row hload hst hdeal
    have hmain :
        upsertManualQueueRow store s t src cid custid n1 =
          (.requeued_from_error, store.map (fun r =>
            if rowHasKey r s t then
              { r with status := .planned, source_hubspot_deal_id := some src,
                       metadata := manualQueueMergedMeta row.metadata src cid custid n1,
                       updated_at := n1 }
            else r)) := by
      simp only [upsertManualQueueRow, hload, hdeal]
      rw [if_neg Bool.false_ne_true]
      rw [hst]
    rw [hmain]
    refine ⟨rfl, ?_⟩
    intro r hr hkey
    simp only [List.mem_map] at hr
    obtain ⟨a, _, rfl⟩ := hr
    by_cases hk : rowHasKey a s t = true
    · simp [hk]
    · rw [if_neg (by simp [Bool.eq_false_iff.mpr hk])] at hkey ⊢
      exact absurd hkey (by simp [Bool.eq_false_iff.mpr hk])

/-- Claim C7 counterexample: on a row whose status is `created` but whose
created-deal-id column is empty, a second planning is not a no-op: the
source's default branch reports `already_queued` and sets the row back to
`planned`. -/
theorem upsertPlanned_created_counterexample :
    rowCreatedNoDeal.status = LedgerStatus.created ∧
    (upsertManualQueueRow [rowCreatedNoDeal] "sub-1" "2025-06-30" "d" "c" "y" "t1").1 =
      EnqueueResultKind.already_queued ∧
    ((upsertManualQueueRow [rowCreatedNoDeal] "sub-1" "2025-06-30" "d" "c" "y" "t1").2.map
      (fun r => r.status)) = [LedgerStatus.planned] := by
  decide

theorem upsertPlanned_round_trip_witness :
    ((upsertManualQueueRow ([] : LedgerStore) "sub-1" "2025-06-30" "d" "c" "y" "t1").1 =
      .queued_new ∧
      (upsertManualQueueRow (upsertManualQueueRow ([] : LedgerStore) "sub-1" "2025-06-30" "d"
        "c" "y" "t1").2 "sub-1" "2025-06-30" "d" "c" "y" "t2").1 = .already_queued ∧
      (upsertManualQueueRow (upsertManualQueueRow ([] : LedgerStore) "sub-1" "2025-06-30" "d"
        "c" "y" "t1").2 "sub-1" "2025-06-30" "d" "c" "y" "t2").2.countP
        (fun r => rowHasKey r "sub-1" "2025-06-30") = 1)
    ∧ upsertManualQueueRow [rowCreatedA] "sub-1" "2025-06-30" "d" "c" "y" "t1" =
        (.already_created, [rowCreatedA])
    ∧ ((upsertManualQueueRow [rowErrored] "sub-1" "2025-06-30" "d" "c" "y" "t1").1 =
        .requeued_from_error ∧
      ∀ r ∈ (upsertManualQueueRow [rowErrored] "sub-1" "2025-06-30" "d" "c" "y" "t1").2,
        rowHasKey r "sub-1" "2025-06-30" = true → r.status = LedgerStatus.planned) :=
  ⟨(upsertPlanned_round_trip [] "sub-1" "2025-06-30" "d" "c" "y" "t1" "t2").1 (by decide),
   (upsertPlanned_round_trip [rowCreatedA] "sub-1" "2025-06-30" "d" "c" "y" "t1" "t2").2.1
     rowCreatedA (by decide) (by decide) (by decide),
   (upsertPlanned_round_trip [rowErrored] "sub-1" "2025-06-30" "d" "c" "y" "t1" "t2").2.2
     rowErrored (by decide) (by decide) (by decide)⟩

theorem batchLoop_ge (fetchBatch : Nat → List LedgerKeyRow) (batchSize : Nat) (filtered : Bool) :
    ∀ fuel processed, processed ≤ batchLoop fetchBatch batchSize filtered fuel processed := by
  intro fuel
  induction fuel with
  | zero => intro processed; simp [batchLoop]
  | succ n ih =>
      intro processed
      simp only [batchLoop]
      by_cases h0 : (fetchBatch processed).length == 0
      · simp [h0]
      · simp only [h0, Bool.false_eq_true, if_false]
        by_cases h1 : (fetchBatch processed).length < batchSize
        · simp [h1]
        · simp only [h1, if_false]
          cases filtered with
          | true => simp
          | false =>
              simp only [Bool.false_eq_true, if_false]
              exact le_trans (Nat.le_succ processed) (ih (processed + 1))

theorem batchLoop_le (fetchBatch : Nat → List LedgerKeyRow) (batchSize : Nat) (filtered : Bool) :
    ∀ fuel processed,
      batchLoop fetchBatch batchSize filtered fuel processed ≤ processed + fuel := by
  intro fuel
  induction fuel with
  | zero => intro processed; simp [batchLoop]
  | succ n ih =>
      intro processed
      simp only [batchLoop]
      by_cases h0 : (fetchBatch processed).length == 0
      · simp [h0]
      · simp only [h0, Bool.false_eq_true, if_false]
        by_cases h1 : (fetchBatch processed).length < batchSize
        · simp [h1]
        · simp only [h1, if_false]
          cases filtered with
          | true => simp
          | false =>
              simp only [Bool.false_eq_true, if_false]
              have := ih (processed + 1)
              omega

theorem batchLoop_filtered (fetchBatch : Nat → List LedgerKeyRow) (batchSize : Nat) :
    ∀ fuel processed,
      batchLoop fetchBatch batchSize true fuel processed ≤ processed + 1 := by
  intro fuel processed
  cases fuel with
  | zero => simp [batchLoop]
  | succ n =>
      simp only [batchLoop]
      by_cases h0 : (fetchBatch processed).length == 0
      · simp [h0]
      · simp only [h0, Bool.false_eq_true, if_false]
        by_cases h1 : (fetchBatch processed).length < batchSize
        · simp [h1]
        · simp [h1]

theorem batchLoop_nonempty (fetchBatch : Nat → List LedgerKeyRow) (batchSize : Nat)
    (filtered : Bool) :
    ∀ fuel processed k, processed ≤ k →
      k < batchLoop fetchBatch batchSize filtered fuel processed → fetchBatch k ≠ [] := by
  intro fuel
  induction fuel with
  | zero =>
      intro processed k hk hlt
      simp [batchLoop] at hlt
      omega
  | succ n ih =>
      intro processed k hk hlt
      simp only [batchLoop] at hlt
      by_cases h0 : (fetchBatch processed).length == 0
      · simp [h0] at hlt; omega
      · simp only [h0, Bool.false_eq_true, if_false] at hlt
        by_cases hkp : k = processed
        · subst hkp
          intro hempty
          rw [hempty] at h0
          simp at h0
        · have hk1 : processed + 1 ≤ k := by omega
          by_cases h1 : (fetchBatch processed).length < batchSize
          · simp [h1] at hlt; omega
          · simp only [h1, if_false] at hlt
            cases filtered with
            | true => simp at hlt; omega
            | false =>
                simp only [Bool.false_eq_true, if_false] at hlt
                exact ih (processed + 1) k hk1 hlt

theorem batchLoop_short_stops (fetchBatch : Nat → List LedgerKeyRow) (batchSize : Nat)
    (filtered : Bool) :
    ∀ fuel processed k, processed ≤ k →
      k < batchLoop fetchBatch batchSize filtered fuel processed →
      (fetchBatch k).length < batchSize →
      batchLoop fetchBatch batchSize filtered fuel processed = k + 1 := by
  intro fuel
  induction fuel with
  | zero =>
      intro processed k hk hlt
      simp [batchLoop] at hlt
      omega
  | succ n ih =>
      intro processed k hk hlt hshort
      simp only [batchLoop] at hlt ⊢
      by_cases h0 : (fetchBatch processed).length == 0
      · simp [h0] at hlt ⊢; omega
      · simp only [h0, Bool.false_eq_true, if_false] at hlt ⊢
        by_cases hkp : k = processed
        · subst hkp
          rw [if_pos hshort]
        · have hk1 : processed + 1 ≤ k := by omega
          by_cases h1 : (fetchBatch processed).length < batchSize
          · simp [h1] at hlt; omega
          · simp only [h1, if_false] at hlt ⊢
            cases filtered with
            | true => simp at hlt; omega
            | false =>
                simp only [Bool.false_eq_true, if_false] at hlt ⊢
                exact ih (processed + 1) k hk1 hlt hshort

/-- Claim C9: the snapshot handler's batch loop runs at most `maxBatches`
iterations (it is total by construction, its fuel being the remaining batch
budget); every counted batch was non-empty, so an empty fetch stops it; a
batch shorter than the requested batch size is the last one; and a
source-filtered run processes at most one batch. -/
theorem batch_loop_bounds (fetchBatch : Nat → List LedgerKeyRow) (batchSize maxBatches : Nat)
    (filtered : Bool) :
    runBatches fetchBatch batchSize maxBatches filtered ≤ maxBatches
    ∧ (filtered = true → runBatches fetchBatch batchSize maxBatches true ≤ 1)
    ∧ (∀ k, k < runBatches fetchBatch batchSize maxBatches filtered → fetchBatch k ≠ [])
    ∧ (∀ k, k < runBatches fetchBatch batchSize maxBatches filtered →
        (fetchBatch k).length < batchSize →
        runBatches fetchBatch batchSize maxBatches filtered = k + 1) := by
  refine ⟨?_, ?_, ?_, ?_⟩
  · have := batchLoop_le fetchBatch batchSize filtered maxBatches 0
    simpa [runBatches] using this
  · intro _
    have := batchLoop_filtered fetchBatch batchSize maxBatches 0
    simpa [runBatches] using this
  · intro k hk
    exact batchLoop_nonempty fetchBatch batchSize filtered maxBatches 0 k (Nat.zero_le k) hk
  · intro k hk hshort
    exact batchLoop_short_stops fetchBatch batchSize filtered maxBatches 0 k (Nat.zero_le k)
      hk hshort

theorem fetchChargesPage_ok_pageNumber (resp : HttpResponse) (orderId : String) (m n : Nat)
    (xs : List Json) (h : fetchChargesPage resp orderId m = .ok xs) :
    fetchChargesPage resp orderId n = .ok xs := by
  simp only [fetchChargesPage] at h ⊢
  by_cases hok : respOk resp = true
  · simp only [hok, if_true] at h ⊢
    cases hb : resp.body with
    | none => rw [hb] at h; simp at h
    | some payload => rw [hb] at h; exact h
  · simp only [Bool.eq_false_iff.mpr hok, Bool.false_eq_true, if_false] at h ⊢
    by_cases hend : (resp.status == 400 && isEndOfPagination resp.body) = true
    · rw [if_pos hend] at h ⊢; exact h
    · rw [if_neg hend] at h; cases h

theorem fetchAllCharges_stops_at_empty_aux (orderId : String) (r : HttpResponse)
    (hr : fetchChargesPage r orderId 0 = .ok []) (rs2 : List HttpResponse) :
    ∀ rs1 : List HttpResponse, ∀ n : Nat,
      fetchAllCharges orderId n (rs1 ++ r :: rs2) = fetchAllCharges orderId n (rs1 ++ [r]) := by
  intro rs1
  induction rs1 with
  | nil =>
      intro n
      simp only [List.nil_append, fetchAllCharges]
      rw [fetchChargesPage_ok_pageNumber r orderId 0 n [] hr]
      simp
  | cons x xs ih =>
      intro n
      simp only [List.cons_append, fetchAllCharges]
      cases hx : fetchChargesPage x orderId n with
      | error e => rfl
      | ok charges =>
          by_cases hc : charges.isEmpty = true
          · simp [hc]
          · simp only [Bool.eq_false_iff.mpr hc, Bool.false_eq_true, if_false]
            have hih := ih (n + 1)
            simp only [List.append_eq] at hih ⊢
            rw [hih]

/-- Claim C8: `fetchChargesPage` turns a 400 response whose `errors.message`
contains a known no-more-results message into an empty page, throws on
every other non-OK response, and an empty page makes `fetchAllCharges`
ignore all later pages (the loop stops there). -/
theorem charges_pagination_end (resp : HttpResponse) (orderId : String) (pageNumber n : Nat)
    (rs1 rs2 : List HttpResponse) :
    (respOk resp = false →
      ((resp.status = 400 ∧ isEndOfPagination resp.body = true) →
        fetchChargesPage resp orderId pageNumber = .ok [])
      ∧ (¬(resp.status = 400 ∧ isEndOfPagination resp.body = true) →
        ∃ msg, fetchChargesPage resp orderId pageNumber = .error msg))
    ∧ (fetchChargesPage resp orderId 0 = .ok [] →
      fetchAllCharges orderId n (rs1 ++ resp :: rs2) = fetchAllCharges orderId n (rs1 ++ [resp]))
    := by
  constructor
  · intro hok
    constructor
    · intro hend
      simp only [fetchChargesPage, Bool.eq_false_iff.mpr (Bool.eq_false_iff.mp hok)]
      simp only [hok, Bool.false_eq_true, if_false]
      rw [if_pos]
      simp [hend.1, hend.2]
    · intro hneg
      have hcond : (resp.status == 400 && isEndOfPagination resp.body) = false := by
        by_cases h4 : resp.status = 400
        · by_cases he : isEndOfPagination resp.body = true
          · exact absurd ⟨h4, he⟩ hneg
          · simp [Bool.eq_false_iff.mpr he]
        · simp [h4]
      refine ⟨"Charges request failed (" ++ toString resp.status ++ ") for order " ++ orderId
        ++ ", page " ++ toString pageNumber ++ ": " ++ resp.text, ?_⟩
      simp only [fetchChargesPage, hok, Bool.false_eq_true, if_false]
      rw [if_neg]
      simp [hcond]
  · intro hr
    exact fetchAllCharges_stops_at_empty_aux orderId resp hr rs2 rs1 n

theorem selectFromChunk_spec (batchSize : Nat) (snapKeys : List String) :
    ∀ (rows selected : List LedgerKeyRow) (selectedKeys : List String),
      selectedKeys = selected.map keyOf →
      selectedKeys.Nodup →
      selected.length < batchSize →
      (selectFromChunk batchSize snapKeys rows selected selectedKeys).2 =
        (selectFromChunk batchSize snapKeys rows selected selectedKeys).1.map keyOf ∧
      (selectFromChunk batchSize snapKeys rows selected selectedKeys).2.Nodup ∧
      (selectFromChunk batchSize snapKeys rows selected selectedKeys).1.length ≤ batchSize ∧
      ∃ newRows,
        (selectFromChunk batchSize snapKeys rows selected selectedKeys).1 =
          selected ++ newRows ∧
        ∀ r ∈ newRows, r ∈ rows ∧ keyOf r ∉ snapKeys := by
  intro rows
  induction rows with
  | nil =>
      intro selected selectedKeys hmap hnd hlen
      refine ⟨hmap, hnd, Nat.le_of_lt hlen, [], by simp [selectFromChunk], by simp⟩
  | cons r rest ih =>
      intro selected selectedKeys hmap hnd hlen
      simp only [selectFromChunk]
      by_cases hskip : (snapKeys.contains (keyOf r) || selectedKeys.contains (keyOf r)) = true
      · rw [if_pos hskip]
        obtain ⟨h1, h2, h3, newRows, h4, h5⟩ := ih selected selectedKeys hmap hnd hlen
        exact ⟨h1, h2, h3, newRows, h4, fun x hx =>
          ⟨List.mem_cons_of_mem r (h5 x hx).1, (h5 x hx).2⟩⟩
      · rw [if_neg (by simpa using hskip)]
        have hnot : keyOf r ∉ snapKeys ∧ keyOf r ∉ selectedKeys := by
          constructor
          · intro hmem
            exact hskip (by simp [hmem])
          · intro hmem
            exact hskip (by simp [hmem])
        have hmap2 : selectedKeys ++ [keyOf r] = (selected ++ [r]).map keyOf := by
          simp [hmap]
        have hnd2 : (selectedKeys ++ [keyOf r]).Nodup := by
          simp [List.nodup_append, hnd, hnot.2]
        by_cases hstop : batchSize ≤ (selected ++ [r]).length
        · rw [if_pos hstop]
          refine ⟨hmap2, hnd2, ?_, [r], by simp, ?_⟩
          · simp only [List.length_append, List.length_cons, List.length_nil]
            omega
          · intro x hx
            simp only [List.mem_singleton] at hx
            subst hx
            exact ⟨by simp, hnot.1⟩
        · rw [if_neg hstop]
          have hlen2 : (selected ++ [r]).length < batchSize := by
            simp only [List.length_append, List.length_cons, List.length_nil] at hstop ⊢
            omega
          obtain ⟨h1, h2, h3, newRows, h4, h5⟩ :=
            ih (selected ++ [r]) (selectedKeys ++ [keyOf r]) hmap2 hnd2 hlen2
          refine ⟨h1, h2, h3, [r] ++ newRows, by simpa using h4, ?_⟩
          intro x hx
          rcases List.mem_append.mp hx with hx1 | hx2
          · simp only [List.mem_singleton] at hx1
            subst hx1
            exact ⟨by simp, hnot.1⟩
          · exact ⟨List.mem_cons_of_mem r (h5 x hx2).1, (h5 x hx2).2⟩

theorem scanLoop_spec (batchSize scanChunk : Nat) :
    ∀ (steps : List ScanStep) (selected : List LedgerKeyRow) (selectedKeys : List String),
      selectedKeys = selected.map keyOf →
      selectedKeys.Nodup →
      selected.length ≤ batchSize →
      ((scanLoop batchSize scanChunk steps selected selectedKeys).map keyOf).Nodup ∧
      (scanLoop batchSize scanChunk steps selected selectedKeys).length ≤ batchSize ∧
      ∃ newRows,
        scanLoop batchSize scanChunk steps selected selectedKeys = selected ++ newRows ∧
        ∀ r ∈ newRows, ∃ step ∈ steps,
          r ∈ uniquePlannedOf step.plannedRows ∧
          keyOf r ∉ stepSnapshotKeys (uniquePlannedOf step.plannedRows) step.snapshotRows := by
  intro steps
  induction steps with
  | nil =>
      intro selected selectedKeys hmap hnd hlen
      refine ⟨?_, by simpa [scanLoop] using hlen, [], by simp [scanLoop], by simp⟩
      simpa [scanLoop, ← hmap] using hnd
  | cons step rest ih =>
      intro selected selectedKeys hmap hnd hlen
      simp only [scanLoop]
      by_cases hfull : batchSize ≤ selected.length
      · rw [if_pos hfull]
        refine ⟨by rw [← hmap]; exact hnd, hlen, [], by simp, by simp⟩
      · rw [if_neg hfull]
        by_cases hempty : step.plannedRows.isEmpty = true
        · rw [if_pos hempty]
          refine ⟨by rw [← hmap]; exact hnd, hlen, [], by simp, by simp⟩
        · rw [if_neg (by simpa using hempty)]
          have hlt : selected.length < batchSize := by omega
          set sel := selectFromChunk batchSize
            (stepSnapshotKeys (uniquePlannedOf step.plannedRows) step.snapshotRows)
            (uniquePlannedOf step.plannedRows) selected selectedKeys with hseldef
          obtain ⟨h1, h2, h3, newRows, h4, h5⟩ :=
            selectFromChunk_spec batchSize
              (stepSnapshotKeys (uniquePlannedOf step.plannedRows) step.snapshotRows)
              (uniquePlannedOf step.plannedRows) selected selectedKeys hmap hnd hlt
          by_cases hshort : step.plannedRows.length < scanChunk
          · rw [if_pos hshort]
            refine ⟨by rw [← h1]; exact h2, h3, newRows, h4, ?_⟩
            intro r hr
            exact ⟨step, List.mem_cons_self step rest, h5 r hr⟩
          · rw [if_neg hshort]
            obtain ⟨g1, g2, newRows2, g3, g4⟩ := ih sel.1 sel.2 h1 h2 h3
            refine ⟨g1, g2, newRows ++ newRows2, ?_, ?_⟩
            · rw [g3, h4, List.append_assoc]
            · intro r hr
              rcases List.mem_append.mp hr with hr1 | hr2
              · exact ⟨step, List.mem_cons_self step rest, h5 r hr1⟩
              · obtain ⟨st, hst, hprop⟩ := g4 r hr2
                exact ⟨st, List.mem_cons_of_mem step hst, hprop⟩

/-- Claim C5: the snapshot selector's output never includes an entry that
already had a snapshot record at the moment its chunk was checked, never
returns the same `(subscription_id, term_end_date)` key twice, and is
bounded by the batch size — in the unfiltered scanning branch
unconditionally, and in the source-filtered branch under the store's
natural-key uniqueness. -/
theorem snapshot_selector_invariants (batchSize : Nat) (steps : List ScanStep)
    (filteredRowsStore snapshotRows : List LedgerKeyRow) :
    (((fetchPlannedUnfiltered batchSize steps).map keyOf).Nodup ∧
      (fetchPlannedUnfiltered batchSize steps).Nodup ∧
      (fetchPlannedUnfiltered batchSize steps).length ≤ batchSize ∧
      ∀ r ∈ fetchPlannedUnfiltered batchSize steps, ∃ step ∈ steps,
        r ∈ uniquePlannedOf step.plannedRows ∧
        keyOf r ∉ stepSnapshotKeys (uniquePlannedOf step.plannedRows) step.snapshotRows)
    ∧ ((fetchPlannedFiltered batchSize filteredRowsStore snapshotRows).length ≤ batchSize ∧
      (∀ r ∈ fetchPlannedFiltered batchSize filteredRowsStore snapshotRows,
        keyOf r ∉ snapshotRows.map keyOf) ∧
      ((filteredRowsStore.map keyOf).Nodup →
        ((fetchPlannedFiltered batchSize filteredRowsStore snapshotRows).map keyOf).Nodup ∧
        (fetchPlannedFiltered batchSize filteredRowsStore snapshotRows).Nodup)) := by
  constructor
  · obtain ⟨h1, h2, newRows, h3, h4⟩ :=
      scanLoop_spec batchSize (max (batchSize * 3) batchSize) steps [] [] rfl List.nodup_nil
        (by simp)
    have hout : fetchPlannedUnfiltered batchSize steps = newRows := by
      simpa [fetchPlannedUnfiltered] using h3
    refine ⟨?_, ?_, ?_, ?_⟩
    · simpa [fetchPlannedUnfiltered] using h1
    · have : ((fetchPlannedUnfiltered batchSize steps).map keyOf).Nodup := by
        simpa [fetchPlannedUnfiltered] using h1
      exact this.of_map keyOf
    · simpa [fetchPlannedUnfiltered] using h2
    · intro r hr
      rw [hout] at hr
      exact h4 r hr
  · refine ⟨?_, ?_, ?_⟩
    · simp only [fetchPlannedFiltered]
      by_cases hem : (filteredRowsStore.take batchSize).isEmpty = true
      · simp [hem]
      · rw [if_neg (by simpa using hem)]
        calc ((filteredRowsStore.take batchSize).filter
                (fun r => !((snapshotRows.map keyOf).contains (keyOf r)))).length
            ≤ (filteredRowsStore.take batchSize).length := List.length_filter_le _ _
          _ ≤ batchSize := List.length_take_le batchSize filteredRowsStore
    · intro r hr
      simp only [fetchPlannedFiltered] at hr
      by_cases hem : (filteredRowsStore.take batchSize).isEmpty = true
      · simp [hem] at hr
      · rw [if_neg (by simpa using hem)] at hr
        have := (List.mem_filter.mp hr).2
        simpa using this
    · intro hnd
      have hfsub : (fetchPlannedFiltered batchSize filteredRowsStore snapshotRows).Sublist
          filteredRowsStore := by
        simp only [fetchPlannedFiltered]
        by_cases hem : (filteredRowsStore.take batchSize).isEmpty = true
        · simp [hem]
        · rw [if_neg (by simpa using hem)]
          exact (List.filter_sublist _).trans (List.take_sublist _ _)
      have hmapnd : ((fetchPlannedFiltered batchSize filteredRowsStore snapshotRows).map
          keyOf).Nodup := hnd.sublist (hfsub.map keyOf)
      exact ⟨hmapnd, hmapnd.of_map keyOf⟩

theorem processChargePlan_dry_frame (fpProp : String) (acc : LiAcc) (plan : ChargePlan) :
    (processChargePlan fpProp true acc plan).crm = acc.crm ∧
    (processChargePlan fpProp true acc plan).effects = acc.effects := by
  cases plan with
  | errorSkip m => simp [processChargePlan, pushError]
  | lineItem fp props => simp [processChargePlan]

theorem runPlans_dry_frame (fpProp : String) :
    ∀ (plans : List ChargePlan) (acc : LiAcc),
      (runPlans fpProp true plans acc).crm = acc.crm ∧
      (runPlans fpProp true plans acc).effects = acc.effects
  | [], _ => ⟨rfl, rfl⟩
  | plan :: rest, acc =>
      have h1 := processChargePlan_dry_frame fpProp acc plan
      have h2 := runPlans_dry_frame fpProp rest (processChargePlan fpProp true acc plan)
      ⟨h2.1.trans h1.1, h2.2.trans h1.2⟩

theorem processLineItems_dry_frame (subId termEnd : String) (p : LineItemPropNames)
    (fsMs feYmd : String) (tm : ℤ) (chargesJson : Json) (crm : CrmState) :
    (processLineItemsForRow subId termEnd p fsMs feYmd tm true chargesJson crm).crm = crm ∧
    (processLineItemsForRow subId termEnd p fsMs feYmd tm true chargesJson crm).effects = [] :=
  runPlans_dry_frame p.HS_LI_FINGERPRINT_PROP
    (((parseCharges chargesJson).filter isRecurringAndNotCancelled).map
      (planCharge subId termEnd p fsMs feYmd tm))
    (initialLiAcc crm)

/-- Claim C10: with `dry_run = true` the per-row handler performs no ledger
state mutation and no CRM create/associate/update call: the ledger store
and the CRM are returned unchanged and every effect in the trace is a read.
(The dry-run branch returns before the claim, the 404 `markError` is
guarded by `!dryRun`, and the line-item loop collects payload samples
before any CRM call.) -/
theorem dry_run_no_mutations (createLineItems : Bool) (p : LineItemPropNames) (row : ReadyRow)
    (env : RowEnv) (runMode nowIso : String) (st : ProcState) :
    (processRow true createLineItems p row env runMode nowIso st).2.1.ledger = st.ledger
    ∧ (processRow true createLineItems p row env runMode nowIso st).2.1.crm = st.crm
    ∧ ∀ e ∈ (processRow true createLineItems p row env runMode nowIso st).2.2,
        e.isMutation = false := by
  cases hsd : env.sourceDeal with
  | error m => simp [processRow, hsd, Effect.isMutation]
  | ok sd =>
      cases sd with
      | notFound msg => simp [processRow, hsd, Effect.isMutation]
      | httpError msg => simp [processRow, hsd, Effect.isMutation]
      | okDeal sid =>
          cases hfc : env.forecast with
          | error m => simp [processRow, hsd, hfc, Effect.isMutation]
          | ok fc =>
              have hli := fun crm => processLineItems_dry_frame row.subscription_id
                row.term_end_date p fc.forecastStartMs fc.forecastEndYmd fc.termMonths
                row.younium_charges_json crm
              cases hcache : st.domainCache.find?
                  (fun q => q.1 == row.source_hubspot_deal_id) with
              | some q =>
                  cases createLineItems with
                  | false => simp [processRow, hsd, hfc, hcache, Effect.isMutation]
                  | true =>
                      simp [processRow, hsd, hfc, hcache, (hli st.crm).1, (hli st.crm).2,
                        Effect.isMutation]
              | none =>
                  cases createLineItems with
                  | false => simp [processRow, hsd, hfc, hcache, Effect.isMutation]
                  | true =>
                      simp [processRow, hsd, hfc, hcache, (hli st.crm).1, (hli st.crm).2,
                        Effect.isMutation]

theorem lookupProp_map_overwrite_self (k v : String) :
    ∀ props : List (String × String), props.any (fun p => p.1 == k) = true →
      lookupProp (props.map (fun q => if q.1 == k then (k, v) else q)) k = some v := by
  intro props
  induction props with
  | nil => intro h; cases h
  | cons q qs ih =>
      intro h
      by_cases hq : (q.1 == k) = true
      · simp only [List.map_cons, if_pos hq, lookupProp]
        rw [List.find?_cons_of_pos]
        · rfl
        · simp
      · simp only [List.map_cons, if_neg hq, lookupProp]
        rw [List.find?_cons_of_neg]
        · have hqs : qs.any (fun p => p.1 == k) = true := by
            simp only [List.any_cons, hq, Bool.false_or] at h
            exact h
          exact ih hqs
        · simp only [hq]
          exact Bool.false_ne_true

theorem lookupProp_append_self (k v : String) (props : List (String × String))
    (h : props.any (fun p => p.1 == k) = false) :
    lookupProp (props ++ [(k, v)]) k = some v := by
  simp only [lookupProp, List.find?_append]
  have h1 : props.find? (fun p => p.1 == k) = none := by
    rw [List.find?_eq_none]
    intro x hx
    have := List.any_eq_false.mp h x hx
    simpa using this
  rw [h1]
  simp

theorem lookupProp_recordSet_self (k v : String) (props : List (String × String)) :
    lookupProp (recordSet props k v) k = some v := by
  by_cases h : props.any (fun p => p.1 == k) = true
  · simp only [recordSet, if_pos h]
    exact lookupProp_map_overwrite_self k v props h
  · simp only [recordSet, if_neg h]
    exact lookupProp_append_self k v props (Bool.eq_false_iff.mpr h)

theorem lookupProp_map_overwrite_ne (k1 v k2 : String) (hne : (k2 == k1) = false) :
    ∀ props : List (String × String),
      lookupProp (props.map (fun q => if q.1 == k1 then (k1, v) else q)) k2 =
        lookupProp props k2 := by
  intro props
  induction props with
  | nil => rfl
  | cons q qs ih =>
      have h12 : (k1 == k2) = false := by
        rcases Bool.eq_false_iff.mp hne with h
        exact Bool.eq_false_iff.mpr (fun hk => h (by rw [beq_iff_eq] at hk ⊢; exact hk.symm))
      by_cases hq2 : (q.1 == k2) = true
      · have hq2eq : q.1 = k2 := by rwa [beq_iff_eq] at hq2
        have hq1 : (q.1 == k1) = false := by rw [hq2eq]; exact hne
        simp only [List.map_cons, hq1, Bool.false_eq_true, if_false, lookupProp]
        rw [@List.find?_cons_of_pos _ (fun p => p.1 == k2) q _ hq2,
          @List.find?_cons_of_pos _ (fun p => p.1 == k2) q _ hq2]
      · simp only [List.map_cons, lookupProp]
        by_cases hq1 : (q.1 == k1) = true
        · rw [if_pos hq1]
          rw [List.find?_cons_of_neg, List.find?_cons_of_neg]
          · exact ih
          · simp only [hq2]; exact Bool.false_ne_true
          · simp only [h12]; exact Bool.false_ne_true
        · rw [if_neg hq1]
          rw [List.find?_cons_of_neg, List.find?_cons_of_neg]
          · exact ih
          · simp only [hq2]; exact Bool.false_ne_true
          · simp only [hq2]; exact Bool.false_ne_true

theorem lookupProp_recordSet_ne (k1 v k2 : String) (hne : (k2 == k1) = false)
    (props : List (String × String)) :
    lookupProp (recordSet props k1 v) k2 = lookupProp props k2 := by
  have h12 : (k1 == k2) = false := by
    rcases Bool.eq_false_iff.mp hne with h
    exact Bool.eq_false_iff.mpr (fun hk => h (by rw [beq_iff_eq] at hk ⊢; exact hk.symm))
  by_cases h : props.any (fun p => p.1 == k1) = true
  · simp only [recordSet, if_pos h]
    exact lookupProp_map_overwrite_ne k1 v k2 hne props
  · simp only [recordSet, if_neg h]
    simp only [lookupProp, List.find?_append]
    have h2 : List.find? (fun p => p.1 == k2) [(k1, v)] = none := by
      simp [List.find?, h12]
    rw [h2]
    simp

theorem buildLineItemProperties_fingerprint_lookup (charge : Json) (p : LineItemPropNames)
    (fp fsMs feYmd : String) (tm : ℤ) (cid fp2 : String) (props : List (String × String))
    (h1 : (p.HS_LI_FINGERPRINT_PROP == p.HS_LI_YOUNIUM_CHARGE_ID_PROP) = false)
    (h2 : (p.HS_LI_FINGERPRINT_PROP == p.HS_LI_YOUNIUM_ORDER_CHARGE_ID_PROP) = false)
    (h3 : (p.HS_LI_FINGERPRINT_PROP == "discount") = false)
    (hok : buildLineItemProperties charge p fp fsMs feYmd tm = .ok cid fp2 props) :
    fp2 = fp ∧ lookupProp props p.HS_LI_FINGERPRINT_PROP = some fp := by
  simp only [buildLineItemProperties] at hok
  split at hok
  · simp at hok
  split at hok
  · simp at hok
  split at hok
  · simp at hok
  split at hok
  · simp at hok
  split at hok
  · -- discount present and positive
    split at hok
    · injection hok with hcid hfp hprops
      subst hprops
      refine ⟨hfp.symm, ?_⟩
      rw [lookupProp_recordSet_ne _ _ _ h3]
      simp only [recordOfPairs, List.foldl]
      rw [lookupProp_recordSet_ne _ _ _ h2, lookupProp_recordSet_ne _ _ _ h1,
        lookupProp_recordSet_self]
    · injection hok with hcid hfp hprops
      subst hprops
      refine ⟨hfp.symm, ?_⟩
      simp only [recordOfPairs, List.foldl]
      rw [lookupProp_recordSet_ne _ _ _ h2, lookupProp_recordSet_ne _ _ _ h1,
        lookupProp_recordSet_self]
  · -- no discount
    injection hok with hcid hfp hprops
    subst hprops
    refine ⟨hfp.symm, ?_⟩
    simp only [recordOfPairs, List.foldl]
    rw [lookupProp_recordSet_ne _ _ _ h2, lookupProp_recordSet_ne _ _ _ h1,
      lookupProp_recordSet_self]

theorem pushLineItemId_frame (acc : LiAcc) (i : String) :
    (pushLineItemId acc i).crm = acc.crm ∧
    (pushLineItemId acc i).createdCount = acc.createdCount ∧
    (pushLineItemId acc i).dedupedCount = acc.dedupedCount ∧
    (pushLineItemId acc i).errorCount = acc.errorCount ∧
    (pushLineItemId acc i).errorSamples = acc.errorSamples ∧
    (pushLineItemId acc i).effects = acc.effects := by
  simp only [pushLineItemId]
  split <;> simp

theorem pushLineItemId_lists (a b : LiAcc) (i : String)
    (hu : b.uniqueLineItemIds = a.uniqueLineItemIds)
    (hl : b.lineItemIds = a.lineItemIds)
    (ha : b.associatedLineItemIds = a.associatedLineItemIds) :
    (pushLineItemId b i).uniqueLineItemIds = (pushLineItemId a i).uniqueLineItemIds ∧
    (pushLineItemId b i).lineItemIds = (pushLineItemId a i).lineItemIds ∧
    (pushLineItemId b i).associatedLineItemIds = (pushLineItemId a i).associatedLineItemIds := by
  by_cases hc : i ∈ a.uniqueLineItemIds
  · simp [pushLineItemId, hu, hl, ha, hc]
  · simp [pushLineItemId, hu, hl, ha, hc]

theorem searchLineItem_mono (crm crm2 : CrmState) (ext : List CrmLineItem)
    (hext : crm2.items = crm.items ++ ext) (fpProp fingerprint id2 : String)
    (h : searchLineItemByFingerprint crm fpProp fingerprint = some id2) :
    searchLineItemByFingerprint crm2 fpProp fingerprint = some id2 := by
  simp only [searchLineItemByFingerprint] at h ⊢
  rw [hext, List.find?_append]
  obtain ⟨item, hitem, hid⟩ := Option.map_eq_some'.mp h
  rw [hitem]
  simpa using hid

theorem searchLineItem_mono_miss (crm crm2 : CrmState) (item : CrmLineItem)
    (ext : List CrmLineItem) (hext : crm2.items = crm.items ++ item :: ext)
    (fpProp fingerprint : String)
    (hmiss : searchLineItemByFingerprint crm fpProp fingerprint = none)
    (hhit : (lookupProp item.properties fpProp == some fingerprint) = true) :
    searchLineItemByFingerprint crm2 fpProp fingerprint = some item.id := by
  simp only [searchLineItemByFingerprint] at hmiss ⊢
  rw [hext, List.find?_append]
  have hnone : List.find? (fun it => lookupProp it.properties fpProp == some fingerprint)
      crm.items = none := by
    cases hf : List.find? (fun it => lookupProp it.properties fpProp == some fingerprint)
        crm.items with
    | none => rfl
    | some it => rw [hf] at hmiss; simp at hmiss
  rw [hnone]
  simp only [Option.none_or]
  rw [@List.find?_cons_of_pos _ _ item _ hhit]
  rfl

theorem processChargePlan_crm_extends (fpProp : String) (acc : LiAcc) (plan : ChargePlan) :
    ∃ ext, (processChargePlan fpProp false acc plan).crm.items = acc.crm.items ++ ext := by
  cases plan with
  | errorSkip m => exact ⟨[], by simp [processChargePlan, pushError]⟩
  | lineItem fp props =>
      cases hs : searchLineItemByFingerprint acc.crm fpProp fp with
      | some id =>
          refine ⟨[], ?_⟩
          simp only [processChargePlan, hs, Bool.false_eq_true, if_false]
          rw [(pushLineItemId_frame _ _).1]
          simp
      | none =>
          refine ⟨[{ id := "line-item-" ++ toString acc.crm.nextId, properties := props }], ?_⟩
          simp only [processChargePlan, hs, Bool.false_eq_true, if_false]
          rw [(pushLineItemId_frame _ _).1]
          simp [createHubSpotLineItem]

theorem runPlans_crm_extends (fpProp : String) :
    ∀ (plans : List ChargePlan) (acc : LiAcc),
      ∃ ext, (runPlans fpProp false plans acc).crm.items = acc.crm.items ++ ext := by
  intro plans
  induction plans with
  | nil => intro acc; exact ⟨[], by simp [runPlans]⟩
  | cons plan rest ih =>
      intro acc
      obtain ⟨ext1, hext1⟩ := processChargePlan_crm_extends fpProp acc plan
      obtain ⟨ext2, hext2⟩ := ih (processChargePlan fpProp false acc plan)
      refine ⟨ext1 ++ ext2, ?_⟩
      show (runPlans fpProp false rest (processChargePlan fpProp false acc plan)).crm.items = _
      rw [hext2, hext1, List.append_assoc]

theorem processChargePlan_hit (fpProp : String) (acc : LiAcc) (fp : String)
    (props : List (String × String)) (id : String)
    (hs : searchLineItemByFingerprint acc.crm fpProp fp = some id) :
    ∃ acc2, processChargePlan fpProp false acc (ChargePlan.lineItem fp props) =
        pushLineItemId acc2 id ∧
      acc2.crm = acc.crm ∧ acc2.createdCount = acc.createdCount ∧
      acc2.dedupedCount = acc.dedupedCount + 1 ∧ acc2.errorCount = acc.errorCount ∧
      acc2.errorSamples = acc.errorSamples ∧ acc2.lineItemIds = acc.lineItemIds ∧
      acc2.associatedLineItemIds = acc.associatedLineItemIds ∧
      acc2.uniqueLineItemIds = acc.uniqueLineItemIds :=
  ⟨{ acc with
     dedupedCount := acc.dedupedCount + 1,
     effects := acc.effects ++ [Effect.searchLineItem, Effect.associateLineItem] },
    by simp only [processChargePlan, hs, Bool.false_eq_true, if_false],
    rfl, rfl, rfl, rfl, rfl, rfl, rfl, rfl⟩

theorem processChargePlan_miss (fpProp : String) (acc : LiAcc) (fp : String)
    (props : List (String × String))
    (hs : searchLineItemByFingerprint acc.crm fpProp fp = none) :
    ∃ acc2, processChargePlan fpProp false acc (ChargePlan.lineItem fp props) =
        pushLineItemId acc2 ("line-item-" ++ toString acc.crm.nextId) ∧
      acc2.crm.items = acc.crm.items ++
        [{ id := "line-item-" ++ toString acc.crm.nextId, properties := props }] ∧
      acc2.createdCount = acc.createdCount + 1 ∧
      acc2.dedupedCount = acc.dedupedCount ∧ acc2.errorCount = acc.errorCount ∧
      acc2.errorSamples = acc.errorSamples ∧ acc2.lineItemIds = acc.lineItemIds ∧
      acc2.associatedLineItemIds = acc.associatedLineItemIds ∧
      acc2.uniqueLineItemIds = acc.uniqueLineItemIds :=
  ⟨{ acc with
     crm := (createHubSpotLineItem acc.crm props).2,
     createdCount := acc.createdCount + 1,
     effects := acc.effects ++
       [Effect.searchLineItem, Effect.createLineItem, Effect.associateLineItem] },
    by simp only [processChargePlan, hs, Bool.false_eq_true, if_false, createHubSpotLineItem],
    by simp [createHubSpotLineItem], rfl, rfl, rfl, rfl, rfl, rfl, rfl⟩

theorem runPlans_idem_aux (fpProp : String) :
    ∀ plans : List ChargePlan,
      (∀ pl ∈ plans, ∀ fp props, pl = ChargePlan.lineItem fp props →
        lookupProp props fpProp = some fp) →
      ∀ acc1 acc2 : LiAcc, RunRel fpProp plans acc1 acc2 →
        RunRel fpProp [] (runPlans fpProp false plans acc1)
          (runPlans fpProp false plans acc2) := by
  intro plans
  induction plans with
  | nil =>
      intro _ acc1 acc2 hrel
      exact hrel
  | cons pl rest ih =>
      intro hplans acc1 acc2 hrel
      obtain ⟨hcrm, hcr0, hded, herr, hsam, hlin, hass, huniq⟩ := hrel
      simp only [runPlans] at hcrm
      have hplans2 : ∀ p2 ∈ rest, ∀ fp props, p2 = ChargePlan.lineItem fp props →
          lookupProp props fpProp = some fp :=
        fun p2 hp2 => hplans p2 (List.mem_cons_of_mem pl hp2)
      show RunRel fpProp []
        (runPlans fpProp false rest (processChargePlan fpProp false acc1 pl))
        (runPlans fpProp false rest (processChargePlan fpProp false acc2 pl))
      apply ih hplans2
      cases pl with
      | errorSkip m =>
          refine ⟨?_, ?_, ?_, ?_, ?_, ?_, ?_, ?_⟩ <;>
            simp [processChargePlan, pushError, hcrm, hcr0, hded, herr, hsam, hlin, hass,
              huniq]
      | lineItem fp props =>
          have hlk : lookupProp props fpProp = some fp :=
            hplans _ (List.mem_cons_self _ _) fp props rfl
          cases hs1 : searchLineItemByFingerprint acc1.crm fpProp fp with
          | some id =>
              obtain ⟨accA, hA, hAcrm, hAcr, hAded, hAerr, hAsam, hAlin, hAass, hAuniq⟩ :=
                processChargePlan_hit fpProp acc1 fp props id hs1
              obtain ⟨ext, hext⟩ := runPlans_crm_extends fpProp rest
                (processChargePlan fpProp false acc1 (ChargePlan.lineItem fp props))
              have hitems : acc2.crm.items = acc1.crm.items ++ ext := by
                rw [hcrm, hext, hA, (pushLineItemId_frame _ _).1, hAcrm]
              have hs2 : searchLineItemByFingerprint acc2.crm fpProp fp = some id :=
                searchLineItem_mono acc1.crm acc2.crm ext hitems fpProp fp id hs1
              obtain ⟨accB, hB, hBcrm, hBcr, hBded, hBerr, hBsam, hBlin, hBass, hBuniq⟩ :=
                processChargePlan_hit fpProp acc2 fp props id hs2
              rw [hA, hB]
              obtain ⟨hLu, hLl, hLa⟩ := pushLineItemId_lists accA accB id
                (by rw [hBuniq, hAuniq, huniq]) (by rw [hBlin, hAlin, hlin])
                (by rw [hBass, hAass, hass])
              refine ⟨?_, ?_, ?_, ?_, ?_, ?_, ?_, ?_⟩
              · rw [(pushLineItemId_frame accB id).1, hBcrm, hcrm, hA]
              · rw [(pushLineItemId_frame accB id).2.1, hBcr, hcr0]
              · rw [(pushLineItemId_frame accB id).2.2.1,
                  (pushLineItemId_frame accA id).2.1, (pushLineItemId_frame accA id).2.2.1,
                  hBded, hAded, hAcr, hded]
                omega
              · rw [(pushLineItemId_frame accB id).2.2.2.1,
                  (pushLineItemId_frame accA id).2.2.2.1, hBerr, hAerr, herr]
              · rw [(pushLineItemId_frame accB id).2.2.2.2.1,
                  (pushLineItemId_frame accA id).2.2.2.2.1, hBsam, hAsam, hsam]
              · exact hLl
              · exact hLa
              · exact hLu
          | none =>
              obtain ⟨accA, hA, hAcrm, hAcr, hAded, hAerr, hAsam, hAlin, hAass, hAuniq⟩ :=
                processChargePlan_miss fpProp acc1 fp props hs1
              obtain ⟨ext, hext⟩ := runPlans_crm_extends fpProp rest
                (processChargePlan fpProp false acc1 (ChargePlan.lineItem fp props))
              have hitems : acc2.crm.items = acc1.crm.items ++
                  ({ id := "line-item-" ++ toString acc1.crm.nextId, properties := props } :
                    CrmLineItem) :: ext := by
                rw [hcrm, hext, hA, (pushLineItemId_frame _ _).1, hAcrm]
                simp
              have hs2 : searchLineItemByFingerprint acc2.crm fpProp fp =
                  some ("line-item-" ++ toString acc1.crm.nextId) :=
                searchLineItem_mono_miss acc1.crm acc2.crm
                  { id := "line-item-" ++ toString acc1.crm.nextId, properties := props }
                  ext hitems fpProp fp hs1 (by simp [hlk])
              obtain ⟨accB, hB, hBcrm, hBcr, hBded, hBerr, hBsam, hBlin, hBass, hBuniq⟩ :=
                processChargePlan_hit fpProp acc2 fp props
                  ("line-item-" ++ toString acc1.crm.nextId) hs2
              rw [hA, hB]
              obtain ⟨hLu, hLl, hLa⟩ := pushLineItemId_lists accA accB
                ("line-item-" ++ toString acc1.crm.nextId)
                (by rw [hBuniq, hAuniq, huniq]) (by rw [hBlin, hAlin, hlin])
                (by rw [hBass, hAass, hass])
              refine ⟨?_, ?_, ?_, ?_, ?_, ?_, ?_, ?_⟩
              · rw [(pushLineItemId_frame accB _).1, hBcrm, hcrm, hA]
              · rw [(pushLineItemId_frame accB _).2.1, hBcr, hcr0]
              · rw [(pushLineItemId_frame accB _).2.2.1,
                  (pushLineItemId_frame accA _).2.1, (pushLineItemId_frame accA _).2.2.1,
                  hBded, hAded, hAcr, hded]
                omega
              · rw [(pushLineItemId_frame accB _).2.2.2.1,
                  (pushLineItemId_frame accA _).2.2.2.1, hBerr, hAerr, herr]
              · rw [(pushLineItemId_frame accB _).2.2.2.2.1,
                  (pushLineItemId_frame accA _).2.2.2.2.1, hBsam, hAsam, hsam]
              · exact hLl
              · exact hLa
              · exact hLu

theorem planCharge_lineItem_spec (sub term : String) (p : LineItemPropNames)
    (fsMs feYmd : String) (tm : ℤ) (charge : Json) (fp : String)
    (props : List (String × String))
    (h1 : (p.HS_LI_FINGERPRINT_PROP == p.HS_LI_YOUNIUM_CHARGE_ID_PROP) = false)
    (h2 : (p.HS_LI_FINGERPRINT_PROP == p.HS_LI_YOUNIUM_ORDER_CHARGE_ID_PROP) = false)
    (h3 : (p.HS_LI_FINGERPRINT_PROP == "discount") = false)
    (heq : planCharge sub term p fsMs feYmd tm charge = ChargePlan.lineItem fp props) :
    chargeFingerprint sub term charge = some fp ∧
    lookupProp props p.HS_LI_FINGERPRINT_PROP = some fp := by
  simp only [planCharge] at heq
  split at heq
  · simp at heq
  next fpc hcf =>
    split at heq
    · simp at heq
    next c f2 pr hbl =>
      injection heq with hf hpr
      obtain ⟨hfp2, hlk⟩ :=
        buildLineItemProperties_fingerprint_lookup charge p fpc fsMs feYmd tm c f2 pr h1 h2 h3 hbl
      subst hpr
      constructor
      · rw [hcf, ← hf, hfp2]
      · rw [hlk, ← hf, hfp2]

/-- Claim C3: with the configured fingerprint property name distinct from
the other property names the builder writes after it, running materialize
(`processLineItemsForRow`, dry run off) a second time over the same
(entry, snapshot, charge-set) against the CRM the first run left behind
creates zero new artifacts, leaves the CRM unchanged, reports the identical
artifact-id lists, and counts every artifact the first run created or
deduplicated as deduplicated. -/
theorem materialize_idempotent (subscriptionId termEndDate : String) (p : LineItemPropNames)
    (forecastStartMs forecastEndYmd : String) (termMonths : ℤ) (chargesJson : Json)
    (crm : CrmState) (run1 run2 : LiAcc)
    (h1 : p.HS_LI_FINGERPRINT_PROP ≠ p.HS_LI_YOUNIUM_CHARGE_ID_PROP)
    (h2 : p.HS_LI_FINGERPRINT_PROP ≠ p.HS_LI_YOUNIUM_ORDER_CHARGE_ID_PROP)
    (h3 : p.HS_LI_FINGERPRINT_PROP ≠ "discount")
    (hrun1 : run1 = processLineItemsForRow subscriptionId termEndDate p forecastStartMs
      forecastEndYmd termMonths false chargesJson crm)
    (hrun2 : run2 = processLineItemsForRow subscriptionId termEndDate p forecastStartMs
      forecastEndYmd termMonths false chargesJson run1.crm) :
    run2.createdCount = 0 ∧
    run2.crm = run1.crm ∧
    run2.lineItemIds = run1.lineItemIds ∧
    run2.associatedLineItemIds = run1.associatedLineItemIds ∧
    run2.uniqueLineItemIds = run1.uniqueLineItemIds ∧
    run2.dedupedCount = run1.createdCount + run1.dedupedCount ∧
    run2.errorCount = run1.errorCount ∧
    run2.errorSamples = run1.errorSamples := by
  subst hrun1
  subst hrun2
  simp only [processLineItemsForRow]
  set plans := List.map (planCharge subscriptionId termEndDate p forecastStartMs forecastEndYmd
    termMonths) ((parseCharges chargesJson).filter isRecurringAndNotCancelled) with hplansdef
  have hplans : ∀ pl ∈ plans, ∀ fp props, pl = ChargePlan.lineItem fp props →
      lookupProp props p.HS_LI_FINGERPRINT_PROP = some fp := by
    intro pl hpl fp props hpl2
    rw [hplansdef] at hpl
    simp only [List.mem_map] at hpl
    obtain ⟨charge, hin, rfl⟩ := hpl
    exact (planCharge_lineItem_spec subscriptionId termEndDate p forecastStartMs forecastEndYmd
      termMonths charge fp props (beq_eq_false_iff_ne.mpr h1) (beq_eq_false_iff_ne.mpr h2)
      (beq_eq_false_iff_ne.mpr h3) hpl2).2
  have hmain := runPlans_idem_aux p.HS_LI_FINGERPRINT_PROP plans hplans (initialLiAcc crm)
    (initialLiAcc (runPlans p.HS_LI_FINGERPRINT_PROP false plans (initialLiAcc crm)).crm)
    ⟨rfl, rfl, rfl, rfl, rfl, rfl, rfl, rfl⟩
  obtain ⟨c1, c2, c3, c4, c5, c6, c7, c8⟩ := hmain
  exact ⟨c2, c1, c6, c7, c8, c3, c4, c5⟩

/-- Concrete idempotence instance: the two-charge demo payload run twice
from an empty CRM. -/
theorem materialize_idempotent_witness :
    demoRun2.createdCount = 0 ∧
    demoRun2.crm = demoRun1.crm ∧
    demoRun2.lineItemIds = demoRun1.lineItemIds ∧
    demoRun2.associatedLineItemIds = demoRun1.associatedLineItemIds ∧
    demoRun2.uniqueLineItemIds = demoRun1.uniqueLineItemIds ∧
    demoRun2.dedupedCount = demoRun1.createdCount + demoRun1.dedupedCount ∧
    demoRun2.errorCount = demoRun1.errorCount ∧
    demoRun2.errorSamples = demoRun1.errorSamples :=
  materialize_idempotent "sub-1" "2025-06-30" demoProps "1750000000000" "2025-06-30" 12
    demoChargesJson emptyCrm demoRun1 demoRun2 (by decide) (by decide) (by decide) rfl rfl

/-- Claim C4 (amended): the fingerprint is the deterministic four-part
string `subscriptionId:termEndDate:chargeId:orderChargeId` (the last part
is the literal placeholder when the charge has no `id`); two charges
agreeing on the charge identifier and on the `id` field get the identical
fingerprint — in particular the second of two plans carrying one
fingerprint is deduplicated against the artifact the first created, with
`createdCount = 1`, `dedupedCount = 1`, and exactly one new artifact. -/
theorem fingerprint_determinism_and_dedup (sub term : String) (p : LineItemPropNames)
    (fsMs feYmd : String) (tm : ℤ) (c1 c2 chargesJson : Json) (crm : CrmState)
    (fp fp2 : String) (props1 props2 : List (String × String))
    (h1 : p.HS_LI_FINGERPRINT_PROP ≠ p.HS_LI_YOUNIUM_CHARGE_ID_PROP)
    (h2 : p.HS_LI_FINGERPRINT_PROP ≠ p.HS_LI_YOUNIUM_ORDER_CHARGE_ID_PROP)
    (h3 : p.HS_LI_FINGERPRINT_PROP ≠ "discount")
    (hid : chargeIdentifierOf c1 = chargeIdentifierOf c2)
    (hoid : asNonEmptyString (c1.getField "id") = asNonEmptyString (c2.getField "id"))
    (hparse : (parseCharges chargesJson).filter isRecurringAndNotCancelled = [c1, c2])
    (hp1 : planCharge sub term p fsMs feYmd tm c1 = ChargePlan.lineItem fp props1)
    (hp2 : planCharge sub term p fsMs feYmd tm c2 = ChargePlan.lineItem fp2 props2)
    (hmiss : searchLineItemByFingerprint crm p.HS_LI_FINGERPRINT_PROP fp = none) :
    fp2 = fp ∧
    chargeFingerprint sub term c1 = chargeFingerprint sub term c2 ∧
    (∀ cid, chargeIdentifierOf c1 = some cid →
      chargeFingerprint sub term c1 = some (sub ++ ":" ++ term ++ ":" ++ cid ++ ":" ++
        ((asNonEmptyString (c1.getField "id")).getD "no-order-charge-id"))) ∧
    (processLineItemsForRow sub term p fsMs feYmd tm false chargesJson crm).createdCount = 1 ∧
    (processLineItemsForRow sub term p fsMs feYmd tm false chargesJson crm).dedupedCount = 1 ∧
    (processLineItemsForRow sub term p fsMs feYmd tm false chargesJson crm).crm.items =
      crm.items ++ [{ id := "line-item-" ++ toString crm.nextId, properties := props1 }] := by
  have hb1 := beq_eq_false_iff_ne.mpr h1
  have hb2 := beq_eq_false_iff_ne.mpr h2
  have hb3 := beq_eq_false_iff_ne.mpr h3
  obtain ⟨hcf1, hlk1⟩ :=
    planCharge_lineItem_spec sub term p fsMs feYmd tm c1 fp props1 hb1 hb2 hb3 hp1
  obtain ⟨hcf2, _⟩ :=
    planCharge_lineItem_spec sub term p fsMs feYmd tm c2 fp2 props2 hb1 hb2 hb3 hp2
  have hfpeq : chargeFingerprint sub term c1 = chargeFingerprint sub term c2 := by
    simp only [chargeFingerprint, hid, hoid]
  have hfp21 : fp2 = fp :=
    (Option.some.inj (hcf1.symm.trans (hfpeq.trans hcf2))).symm
  subst fp2
  have hrun : processLineItemsForRow sub term p fsMs feYmd tm false chargesJson crm =
      runPlans p.HS_LI_FINGERPRINT_PROP false
        [ChargePlan.lineItem fp props1, ChargePlan.lineItem fp props2] (initialLiAcc crm) := by
    simp only [processLineItemsForRow, hparse, List.map]
    rw [hp1, hp2]
  have hs0 : searchLineItemByFingerprint (initialLiAcc crm).crm p.HS_LI_FINGERPRINT_PROP fp =
      none := hmiss
  obtain ⟨accA, hA, hAitems, hAcr, hAded, hAerr, hAsam, hAlin, hAass, hAuniq⟩ :=
    processChargePlan_miss p.HS_LI_FINGERPRINT_PROP (initialLiAcc crm) fp props1 hs0
  have hBcrm := (pushLineItemId_frame accA
    ("line-item-" ++ toString (initialLiAcc crm).crm.nextId)).1
  have hext : (pushLineItemId accA
      ("line-item-" ++ toString (initialLiAcc crm).crm.nextId)).crm.items =
      crm.items ++ ({ id := "line-item-" ++ toString (initialLiAcc crm).crm.nextId,
                      properties := props1 } : CrmLineItem) :: [] := by
    rw [hBcrm, hAitems]
    rfl
  have hs2 : searchLineItemByFingerprint
      (pushLineItemId accA ("line-item-" ++ toString (initialLiAcc crm).crm.nextId)).crm
      p.HS_LI_FINGERPRINT_PROP fp =
      some ("line-item-" ++ toString (initialLiAcc crm).crm.nextId) :=
    searchLineItem_mono_miss crm _
      { id := "line-item-" ++ toString (initialLiAcc crm).crm.nextId, properties := props1 }
      [] hext p.HS_LI_FINGERPRINT_PROP fp hmiss (by simp [hlk1])
  obtain ⟨accC, hC, hCcrm, hCcr, hCded, hCerr, hCsam, hClin, hCass, hCuniq⟩ :=
    processChargePlan_hit p.HS_LI_FINGERPRINT_PROP
      (pushLineItemId accA ("line-item-" ++ toString (initialLiAcc crm).crm.nextId)) fp props2
      ("line-item-" ++ toString (initialLiAcc crm).crm.nextId) hs2
  have hout : runPlans p.HS_LI_FINGERPRINT_PROP false
      [ChargePlan.lineItem fp props1, ChargePlan.lineItem fp props2] (initialLiAcc crm) =
      pushLineItemId accC ("line-item-" ++ toString (initialLiAcc crm).crm.nextId) := by
    show processChargePlan p.HS_LI_FINGERPRINT_PROP false
      (processChargePlan p.HS_LI_FINGERPRINT_PROP false (initialLiAcc crm)
        (ChargePlan.lineItem fp props1)) (ChargePlan.lineItem fp props2) = _
    rw [hA, hC]
  refine ⟨rfl, hfpeq, ?_, ?_, ?_, ?_⟩
  · intro cid hcid
    simp only [chargeFingerprint, hcid]
  · rw [hrun, hout, (pushLineItemId_frame accC _).2.1, hCcr, (pushLineItemId_frame accA _).2.1,
      hAcr]
    rfl
  · rw [hrun, hout, (pushLineItemId_frame accC _).2.2.1, hCded,
      (pushLineItemId_frame accA _).2.2.1, hAded]
    rfl
  · rw [hrun, hout, (pushLineItemId_frame accC _).1, hCcrm, hBcrm, hAitems]
    rfl

/-- Claim C4 counterexample: two charges in one payload with the identical
`chargeId` (and identical subscription and term) but different order-charge
ids receive different fingerprints, and materialize creates two artifacts
with `dedupedCount = 0` — not the claimed single artifact with
`dedupedCount = 1`. -/
theorem fingerprint_orderid_counterexample :
    chargeIdentifierOf (sampleCharge "oc-1") = chargeIdentifierOf (sampleCharge "oc-2") ∧
    chargeFingerprint "sub-1" "2025-06-30" (sampleCharge "oc-1") =
      some "sub-1:2025-06-30:charge-1:oc-1" ∧
    chargeFingerprint "sub-1" "2025-06-30" (sampleCharge "oc-2") =
      some "sub-1:2025-06-30:charge-1:oc-2" ∧
    demoRun1.dedupedCount = 0 ∧
    demoRun1.createdCount = 2 := by decide

/-- Concrete dedup instance: the demo charge duplicated verbatim in one
payload, against an empty CRM. -/
theorem fingerprint_determinism_and_dedup_witness :
    chargeFingerprint "sub-1" "2025-06-30" (sampleCharge "oc-1") =
      chargeFingerprint "sub-1" "2025-06-30" (sampleCharge "oc-1") ∧
    chargeFingerprint "sub-1" "2025-06-30" (sampleCharge "oc-1") =
      some "sub-1:2025-06-30:charge-1:oc-1" ∧
    (processLineItemsForRow "sub-1" "2025-06-30" demoProps "1750000000000" "2025-06-30" 12
      false demoDupJson emptyCrm).createdCount = 1 ∧
    (processLineItemsForRow "sub-1" "2025-06-30" demoProps "1750000000000" "2025-06-30" 12
      false demoDupJson emptyCrm).dedupedCount = 1 ∧
    (processLineItemsForRow "sub-1" "2025-06-30" demoProps "1750000000000" "2025-06-30" 12
      false demoDupJson emptyCrm).crm.items =
      emptyCrm.items ++ [{ id := "line-item-" ++ toString emptyCrm.nextId,
                           properties := demoPlan1Props }] := by
  have h := fingerprint_determinism_and_dedup "sub-1" "2025-06-30" demoProps "1750000000000"
    "2025-06-30" 12 (sampleCharge "oc-1") (sampleCharge "oc-1") demoDupJson emptyCrm
    "sub-1:2025-06-30:charge-1:oc-1" "sub-1:2025-06-30:charge-1:oc-1" demoPlan1Props
    demoPlan1Props (by decide) (by decide) (by decide) rfl rfl rfl rfl rfl rfl
  exact ⟨h.2.1, h.2.2.1 "charge-1" rfl, h.2.2.2.1, h.2.2.2.2.1, h.2.2.2.2.2⟩

end RenewalSpec
